import Mathlib

set_option maxRecDepth 40000
set_option maxHeartbeats 1000000

/- Formal model of the Discord bounty bot (src/bot.py).

   The Python source is shallowly embedded: strings are Lean `String`s
   (sequences of unicode scalar values), `decimal.Decimal` values are modelled
   by `PyDec` (sign, coefficient, exponent, plus infinities and NaNs), the
   JSON persistence layer is modelled by an executable serializer and parser
   mirroring `json.dump(..., indent=4)` / `json.loads`, and each `on_message`
   branch becomes a pure function from the message content, author name and
   current bounty list to a handler result. -/

/-! ## Basic character and string helpers (Python string operations) -/

/-- ASCII decimal digit test. -/
def isDig (c : Char) : Bool := '0' ≤ c && c ≤ '9'

/-- Numeric value of an ASCII digit. -/
def digVal (c : Char) : Nat := c.toNat - 48

/-- Digit string to natural number (most significant first). -/
def digitsToNat (ds : List Char) : Nat := ds.foldl (fun a c => a * 10 + digVal c) 0

/-- ASCII whitespace, the fragment of Python `str.strip` / `str.isspace`
relevant to the strings handled by the bot. -/
def isPyWs (c : Char) : Bool := c == ' ' || (9 ≤ c.toNat && c.toNat ≤ 13)

/-- Python `str.strip()` (ASCII whitespace fragment). -/
def pyStripL (cs : List Char) : List Char := cs.dropWhile isPyWs

/-- Python `str.strip()` on both ends. -/
def pyStripLC (cs : List Char) : List Char := (pyStripL (pyStripL cs).reverse).reverse

/-- Python `str.strip()` on a `String`. -/
def pyStrip (s : String) : String := String.mk (pyStripLC s.data)

/-- Python `str.lower()` (ASCII fragment of unicode lowercasing). -/
def pyLower (s : String) : String := String.mk (s.data.map Char.toLower)

/-- Does `n` occur at the start of `hay`? (Python `str.startswith` on lists.) -/
def leadMatch : List Char → List Char → Bool
  | [], _ => true
  | _ :: _, [] => false
  | a :: as, b :: bs => a == b && leadMatch as bs

/-- Substring containment on char lists (Python `in` on strings). -/
def hasSub : List Char → List Char → Bool
  | n, [] => leadMatch n []
  | n, b :: bs => leadMatch n (b :: bs) || hasSub n bs

/-- Python `needle in hay` for strings. -/
def strHasSub (needle hay : String) : Bool := hasSub needle.data hay.data

/-- Python `s.replace(',', '')`. -/
def stripCommas (s : String) : String := String.mk (s.data.filter (fun c => c ≠ ','))

/-- Python `'.' in s`. -/
def hasDot (s : String) : Bool := s.data.contains '.'

/-- Length of `s.split('.')[-1]`, i.e. the number of characters after the
last `'.'` of `s` (only used when `s` contains a dot). -/
def afterLastDotLen (s : String) : Nat := (s.data.reverse.takeWhile (fun c => c ≠ '.')).length

/-- Number of digit characters occurring after the last `'.'` of `s`. -/
def digitsAfterLastDot (s : String) : Nat :=
  ((s.data.reverse.takeWhile (fun c => c ≠ '.')).filter isDig).length

/-- Decimal digit characters of a natural number, via structural fuel so the
kernel can evaluate it. -/
def natDigitsAux : Nat → Nat → List Char
  | 0, _ => []
  | fuel + 1, n =>
    if n < 10 then [Char.ofNat (48 + n)]
    else natDigitsAux fuel (n / 10) ++ [Char.ofNat (48 + n % 10)]

/-- Decimal digit characters of a natural number (`"0"` for zero). -/
def natDigits (n : Nat) : List Char := natDigitsAux (n + 1) n

/-! ## Model of `decimal.Decimal` as used by bot.py

A Python `Decimal` is a sign, a coefficient and an exponent (value
`±coeff·10^exp`), or an infinity, or a (quiet/signaling) NaN.  NaN payload
digits are not modelled: no bot code path observes them (a NaN always fails
the range comparison, which raises `InvalidOperation`). -/

/-- Model of a `decimal.Decimal` value. `sign = true` means negative. -/
inductive PyDec where
  | finite (sign : Bool) (coeff : Nat) (exp : Int)
  | infinity (sign : Bool)
  | nan (signaling : Bool)
deriving DecidableEq, Repr

/-- Numeric branch of the `Decimal` string grammar: `digits [. digits] [e ...]`,
on a lowercased, stripped, underscore-free char list with the sign removed. -/
def parseDecNumeric (sign : Bool) (cs : List Char) : Option PyDec :=
  let ip := cs.takeWhile isDig
  let rest1 := cs.drop ip.length
  let fp :=
    match rest1 with
    | '.' :: r => r.takeWhile isDig
    | _ => []
  let rest2 :=
    match rest1 with
    | '.' :: r => r.drop (r.takeWhile isDig).length
    | _ => rest1
  if ip.isEmpty && fp.isEmpty then none
  else
    match rest2 with
    | [] => some (.finite sign (digitsToNat (ip ++ fp)) (-(fp.length : Int)))
    | 'e' :: r =>
      let esign := match r with | '-' :: _ => true | _ => false
      let r2 := match r with | '-' :: t => t | '+' :: t => t | t => t
      let ed := r2.takeWhile isDig
      if ed.isEmpty || !(r2.drop ed.length).isEmpty then none
      else
        let ev : Int := if esign then -(digitsToNat ed : Int) else (digitsToNat ed : Int)
        some (.finite sign (digitsToNat (ip ++ fp)) (ev - fp.length))
    | _ => none

/-- `Decimal` string grammar after stripping, underscore removal and
lowercasing: optional sign, then numeric / infinity / NaN. -/
def parseDecCore (cs0 : List Char) : Option PyDec :=
  let sign := match cs0 with | '-' :: _ => true | _ => false
  let cs := match cs0 with | '-' :: r => r | '+' :: r => r | r => r
  match cs with
  | ['i', 'n', 'f'] => some (.infinity sign)
  | ['i', 'n', 'f', 'i', 'n', 'i', 't', 'y'] => some (.infinity sign)
  | 'n' :: 'a' :: 'n' :: r => if r.all isDig then some (.nan false) else none
  | 's' :: 'n' :: 'a' :: 'n' :: r => if r.all isDig then some (.nan true) else none
  | _ => parseDecNumeric sign cs

/-- Model of `Decimal(s)` for a string argument: Python strips whitespace,
removes underscores, and matches the numeric-string grammar case-insensitively;
`none` models the `InvalidOperation` raised on a malformed string. -/
def parseDec (s : String) : Option PyDec :=
  parseDecCore ((pyStripLC s.data).filter (fun c => c ≠ '_') |>.map Char.toLower)

/-- Comparison of two nonnegative finite decimals `c1·10^e1 ≤ c2·10^e2` by
scaling both to the smaller exponent. -/
def finScaleLe (c1 : Nat) (e1 : Int) (c2 : Nat) (e2 : Int) : Bool :=
  decide (c1 * 10 ^ (e1 - min e1 e2).toNat ≤ c2 * 10 ^ (e2 - min e1 e2).toNat)

/-- Model of `Decimal.__le__`: `none` models the `InvalidOperation` raised by
an ordering comparison involving a NaN. -/
def decLe : PyDec → PyDec → Option Bool
  | .nan _, _ => none
  | _, .nan _ => none
  | .infinity s1, .infinity s2 => some (s1 || !s2)
  | .infinity s1, .finite _ _ _ => some s1
  | .finite _ _ _, .infinity s2 => some !s2
  | .finite s1 c1 e1, .finite s2 c2 e2 =>
    some (match s1, s2 with
      | false, false => finScaleLe c1 e1 c2 e2
      | true, true => finScaleLe c2 e2 c1 e1
      | true, false => true
      | false, true => c1 == 0 && c2 == 0)

/-- Model of the chained comparison `lo <= a <= hi` in Python: the left
comparison is evaluated first and short-circuits on `False`; `none` models a
raised `InvalidOperation` (NaN operand). -/
def chainLe (lo a hi : PyDec) : Option Bool :=
  match decLe lo a with
  | none => none
  | some false => some false
  | some true => decLe a hi

/-- `Decimal('0')`. -/
def dec0 : PyDec := .finite false 0 0

/-- `Decimal('101')`. -/
def dec101 : PyDec := .finite false 101 0

/-- `Decimal('1000000')`. -/
def dec1e6 : PyDec := .finite false 1000000 0

/-- Divide `n` by `10^k` rounding half to even (the default `ROUND_HALF_EVEN`
of `Decimal.quantize`). -/
def roundHalfEvenDiv (n k : Nat) : Nat :=
  let d := 10 ^ k
  let q := n / d
  let r := n % d
  if 2 * r < d then q
  else if d < 2 * r then q + 1
  else if q % 2 = 0 then q else q + 1

/-- Model of `amount.quantize(Decimal('0.01'))` on a finite value: rescale the
exponent to `-2` with half-even rounding.  bot.py only quantizes values that
already passed the `[0, 1000000]` range check, so the result never exceeds the
context precision and the infinite/NaN cases are unreachable there. -/
def quantize2 : PyDec → PyDec
  | .finite s c e =>
    if -2 ≤ e then .finite s (c * 10 ^ (e + 2).toNat) (-2)
    else .finite s (roundHalfEvenDiv c (-(e + 2)).toNat) (-2)
  | d => d

/-- Model of `str(Decimal)`: the General Decimal Arithmetic
to-scientific-string conversion. -/
def decToStr : PyDec → String
  | .nan false => "NaN"
  | .nan true => "sNaN"
  | .infinity false => "Infinity"
  | .infinity true => "-Infinity"
  | .finite sgn c e =>
    let ds := natDigits c
    let adj : Int := e + ds.length - 1
    let body : List Char :=
      if e ≤ 0 && -6 ≤ adj then
        if e = 0 then ds
        else
          let k := (-e).toNat
          if k < ds.length then ds.take (ds.length - k) ++ '.' :: ds.drop (ds.length - k)
          else '0' :: '.' :: (List.replicate (k - ds.length) '0' ++ ds)
      else
        let head := ds.take 1
        let tail := ds.drop 1
        (head ++ (if tail.isEmpty then [] else '.' :: tail)) ++ 'E' ::
          (if adj < 0 then '-' :: natDigits (-adj).toNat else '+' :: natDigits adj.toNat)
    String.mk ((if sgn then ['-'] else []) ++ body)

/-- Rational value of a finite `PyDec` (infinities and NaNs mapped to 0;
claims always pair this with a finiteness condition). -/
def decValue : PyDec → ℚ
  | .finite s c e => (if s then -1 else 1) * (c : ℚ) * (10 : ℚ) ^ e
  | _ => 0

/-- Is this decimal finite? -/
def PyDec.isFinite : PyDec → Bool
  | .finite _ _ _ => true
  | _ => false

/-! ## The validators of bot.py -/

/-- bot.py `validate_difficulty` (lines 40-53): lowercase, special-case
Re:Master on substring evidence, otherwise look the string up in the fixed
difficulty dictionary (`none` models Python `None` from `dict.get`). -/
def validate_difficulty (difficulty_str : String) : Option String :=
  let lower_str := pyLower difficulty_str
  if strHasSub "re" lower_str && strHasSub "master" lower_str && strHasSub ":" lower_str then
    some "Re:Master"
  else
    [("easy", "Easy"), ("basic", "Basic"), ("advanced", "Advanced"),
     ("expert", "Expert"), ("master", "Master")].lookup lower_str

/-- bot.py `validate_target` (lines 55-65).  The `InvalidOperation` raised
either by `Decimal(target_str)` or by the chained range comparison (NaN) is
caught by the same `except`, producing the "valid number" message. -/
def validate_target (target_str : String) : Option PyDec × Option String :=
  match parseDec target_str with
  | none => (none, some "Target must be a valid number.")
  | some target =>
    match chainLe dec0 target dec101 with
    | none => (none, some "Target must be a valid number.")
    | some false => (none, some "Target must be between 0 and 101.")
    | some true =>
      if hasDot target_str && decide (afterLastDotLen target_str > 4) then
        (none, some "Target can have a maximum of 4 decimal places.")
      else (some target, none)

/-- bot.py `validate_amount` (lines 67-78): strip commas, parse, range-check
against `[0, 1000000]`, check the text after the last dot, then quantize to
two fractional digits. -/
def validate_amount (amount_str : String) : Option PyDec × Option String :=
  let cleaned := stripCommas amount_str
  match parseDec cleaned with
  | none => (none, some "Amount must be a valid number.")
  | some amount =>
    match chainLe dec0 amount dec1e6 with
    | none => (none, some "Amount must be a valid number.")
    | some false => (none, some "Amount must be between 0 and 1,000,000.")
    | some true =>
      if hasDot cleaned && decide (afterLastDotLen cleaned > 2) then
        (none, some "Amount can have a maximum of 2 decimal places.")
      else (some (quantize2 amount), none)

example : validate_amount "1,234.5" = (some (.finite false 123450 (-2)), none) := by decide
example : validate_amount "1.23 " =
    (none, some "Amount can have a maximum of 2 decimal places.") := by decide
example : validate_amount "12e-3" = (some (.finite false 1 (-2)), none) := by decide
example : validate_amount "nan" = (none, some "Amount must be a valid number.") := by decide
example : validate_amount "inf" =
    (none, some "Amount must be between 0 and 1,000,000.") := by decide
example : decToStr (.finite false 123450 (-2)) = "1234.50" := by decide
example : decToStr (.finite false 123 1) = "1.23E+3" := by decide
example : decToStr (.finite false 1 (-7)) = "1E-7" := by decide
example : decToStr (.finite false 0 (-2)) = "0.00" := by decide
example : parseDec "01" = some (.finite false 1 0) := by decide
example : parseDec " 1.23 " = some (.finite false 123 (-2)) := by decide
example : validate_difficulty "MASTER" = some "Master" := by decide
example : validate_difficulty "re:master" = some "Re:Master" := by decide
example : validate_difficulty "remastered:" = some "Re:Master" := by decide
example : validate_difficulty "hard" = none := by decide
example : validate_target "100.0000" = (some (.finite false 1000000 (-4)), none) := by decide
example : validate_target "102" = (none, some "Target must be between 0 and 101.") := by decide

/-! ## Bounty records and handler results -/

/-- A bounty record as appended by the register handler (the five dict keys
of bot.py line 221-227). -/
structure Bounty where
  song_name : String
  difficulty : String
  target : String
  amount : String
  user : String
deriving DecidableEq, Repr

/-- Outcome of one `on_message` branch: the in-memory list afterwards, the
reply sent to the channel, and the list passed to `save_bounties` if the
branch saved (`none` when `save_bounties` was not called). -/
structure HandlerResult where
  bounties : List Bounty
  response : String
  saved : Option (List Bounty)
deriving DecidableEq, Repr

/-- Worker for Python `s.rsplit(' ', n)`: consumes the reversed character
list, splitting at the last `n` space characters. -/
def rsplitSpGo : Nat → List Char → List Char → List (List Char) → List (List Char)
  | _, [], cur, acc => cur :: acc
  | 0, c :: rest, cur, acc => rsplitSpGo 0 rest (c :: cur) acc
  | n + 1, ' ' :: rest, cur, acc => rsplitSpGo n rest [] (cur :: acc)
  | n + 1, c :: rest, cur, acc => rsplitSpGo (n + 1) rest (c :: cur) acc

/-- Python `s.rsplit(' ', maxsplit)`. -/
def pyRsplitSpace (s : String) (maxsplit : Nat) : List String :=
  (rsplitSpGo maxsplit s.data.reverse [] []).map String.mk

example : pyRsplitSpace "a b c d e" 3 = ["a b", "c", "d", "e"] := by decide
example : pyRsplitSpace "a  b" 3 = ["a", "", "b"] := by decide
example : pyRsplitSpace "" 3 = [""] := by decide

/-- Python `list.remove`: drop the first element equal to `b`.  At its only
call site the element is a member of the list, so the `[]` case (where Python
would raise `ValueError`) is unreachable. -/
def removeFirst : List Bounty → Bounty → List Bounty
  | [], _ => []
  | x :: xs, b => if x = b then xs else x :: removeFirst xs b

/-- The register branch of `on_message` (bot.py lines 190-234), given the full
message content (whose lowercase form starts with `"bounty>register "`), the
author display name, and the current bounty list.  No exception can reach the
surrounding `except` here: the unpack is guarded by the length check and the
validators catch `InvalidOperation` themselves, so the model has no separate
exception path (the impossible validator outcome `(none, none)` is mapped to
an inert result). -/
def handleRegister (content author : String) (bounties : List Bounty) : HandlerResult :=
  let params_str := pyStrip (content.drop 16)
  let parts := pyRsplitSpace params_str 3
  if parts.length < 4 then
    ⟨bounties, "❌ **Invalid Format.** Use: `bounty>register [Song Name] [Difficulty] [Target] [Amount]`", none⟩
  else
    match parts with
    | [p1, p2, p3, p4] =>
      let song_name := pyStrip p1
      let difficulty_str := pyStrip p2
      let target_str := pyStrip p3
      let amount_str := pyStrip p4
      if song_name = "" then
        ⟨bounties, "❌ **Error:** Song name cannot be empty.", none⟩
      else
        match validate_difficulty difficulty_str with
        | none =>
          ⟨bounties, "❌ **Invalid Difficulty.** Valid values are: Easy, Basic, Advanced, Expert, Master, Re:Master.", none⟩
        | some difficulty =>
          match validate_target target_str with
          | (_, some target_error) =>
            ⟨bounties, "❌ **Invalid Target:** " ++ target_error, none⟩
          | (none, none) => ⟨bounties, "", none⟩
          | (some target, none) =>
            match validate_amount amount_str with
            | (_, some amount_error) =>
              ⟨bounties, "❌ **Invalid Amount:** " ++ amount_error, none⟩
            | (none, none) => ⟨bounties, "", none⟩
            | (some amount, none) =>
              let record : Bounty :=
                ⟨song_name, difficulty, decToStr target, decToStr amount, author⟩
              let newList := bounties ++ [record]
              ⟨newList, "✅ **Bounty registered for '" ++ song_name ++ "'!**", some newList⟩
    | _ => ⟨bounties, "", none⟩

/-- The match predicate of the delete branch (bot.py lines 243-246):
`song_query in b['song_name'].lower() and b['user'] == message.author.name`
(`song_query` is already lowercased). -/
def deleteMatches (song_query : String) (author : String) (b : Bounty) : Bool :=
  strHasSub song_query (pyLower b.song_name) && b.user == author

/-- The delete branch of `on_message` (bot.py lines 237-262), given the full
message content (whose lowercase form starts with `"bounty>delete "`). -/
def handleDelete (content author : String) (bounties : List Bounty) : HandlerResult :=
  let song_query := pyLower (pyStrip (content.drop 14))
  if song_query = "" then
    ⟨bounties, "❌ **Invalid Format.** Please provide a song name to delete.", none⟩
  else
    let user_matches := bounties.filter (deleteMatches song_query author)
    match user_matches with
    | [] =>
      ⟨bounties, "❌ **Error:** No bounty found matching that name under your user.", none⟩
    | [bounty_to_delete] =>
      let newList := removeFirst bounties bounty_to_delete
      ⟨newList, "✅ **Successfully deleted bounty:** '" ++ bounty_to_delete.song_name ++ "'",
        some newList⟩
    | ms =>
      let response :=
        "Found multiple bounties matching your query. Please be more specific.\nHere are the matches:\n"
          ++ String.join (ms.map (fun m => "- " ++ m.song_name ++ "\n"))
      ⟨bounties, response, none⟩

/-! ## Paginator (bot.py lines 85-154)

Only the pure pagination state is modelled: the Discord view machinery
(buttons, the 180-second idle timeout, `update_buttons`, message editing) is
UI plumbing on top of `current_page` / `total_pages` / `get_page_content`. -/

/-- Pagination state of `BountyPaginator`. -/
structure BountyPaginator where
  bounties : List Bounty
  current_page : Int
  total_pages : Int
deriving DecidableEq, Repr

/-- `BountyPaginator.__init__`: page 0 and
`total_pages = (len(bounties) - 1) // BOUNTIES_PER_PAGE + 1` (Python floor
division, hence `Int.fdiv`). -/
def paginatorInit (bounties_data : List Bounty) : BountyPaginator :=
  ⟨bounties_data, 0, Int.fdiv ((bounties_data.length : Int) - 1) 10 + 1⟩

/-- The page-state transition of `previous_page`. -/
def previous_page (v : BountyPaginator) : BountyPaginator :=
  if 0 < v.current_page then { v with current_page := v.current_page - 1 } else v

/-- The page-state transition of `next_page`. -/
def next_page (v : BountyPaginator) : BountyPaginator :=
  if v.current_page < v.total_pages - 1 then { v with current_page := v.current_page + 1 } else v

/-- Left-aligned space padding, Python's format spec `:<w` (pads, never
truncates). -/
def padTo (w : Nat) (s : String) : String := s ++ String.mk (List.replicate (w - s.length) ' ')

/-- The song-name display transform of `get_page_content` (bot.py line 108):
`(name[:27] + '...') if len(name) > 30 else name`. -/
def displaySongName (s : String) : String :=
  if 30 < s.length then s.take 27 ++ "..." else s

/-- One table row of `get_page_content` (bot.py line 113).  Records built by
this bot always carry a difficulty, so `bounty.get('difficulty', 'N/A')` is
the field itself. -/
def bountyRow (b : Bounty) : String :=
  padTo 30 (displaySongName b.song_name) ++ " | " ++ padTo 10 b.difficulty ++ " | " ++
    padTo 8 b.target ++ " | " ++ padTo 12 b.amount ++ " | " ++ padTo 20 b.user ++ "\n"

/-- `BountyPaginator.get_page_content` (bot.py lines 95-117). -/
def get_page_content (v : BountyPaginator) : String :=
  let start_index := (v.current_page * 10).toNat
  let current_bounties := (v.bounties.drop start_index).take 10
  let header :=
    padTo 30 "Song Name" ++ " | " ++ padTo 10 "Difficulty" ++ " | " ++ padTo 8 "Target" ++
      " | " ++ padTo 12 "Amount (RM)" ++ " | " ++ padTo 20 "User" ++ "\n"
  let separator :=
    String.mk (List.replicate 30 '-') ++ "-+-" ++ String.mk (List.replicate 10 '-') ++ "-+-" ++
      String.mk (List.replicate 8 '-') ++ "-+-" ++ String.mk (List.replicate 12 '-') ++ "-+-" ++
      String.mk (List.replicate 20 '-') ++ "\n"
  let table := header ++ separator ++ String.join (current_bounties.map bountyRow)
  let footer := "\nPage " ++ toString (v.current_page + 1) ++ "/" ++ toString v.total_pages
  "**Current Bounties:**\n```\n" ++ pyStrip table ++ footer ++ "```"

/-! ## Relay handler (spec §4.6) -/

/-- Action taken by the relay gate on a submitted administrative command. -/
inductive RelayAction where
  | rejected (msg : String)
  | forwarded (cmd : String)
deriving DecidableEq, Repr

/-- The fixed rejection reply of the relay gate. -/
def relayRejectMsg : String := "Command not allowed."

/-- First whitespace-delimited token of a command line. -/
def firstToken (s : String) : String :=
  String.mk ((s.data.dropWhile isPyWs).takeWhile (fun c => !isPyWs c))

/-- Modelled from the spec: the administrative relay handler (the `!server`
command of §4.6) is not among the source files under src/.  Per the spec, the
first whitespace-delimited token of the submitted command is checked
case-insensitively against a fixed allow-list; a non-matching command is
rejected with a fixed error and never forwarded over the remote console
connection, a matching one is forwarded. -/
def relayHandler (allowList : List String) (command : String) : RelayAction :=
  if (allowList.map pyLower).contains (pyLower (firstToken command)) then
    RelayAction.forwarded command
  else
    RelayAction.rejected relayRejectMsg

example :
    handleDelete "bounty>delete free" "alice"
      [⟨"Freedom Dive", "Master", "100.0000", "150.00", "alice"⟩] =
    ⟨[], "✅ **Successfully deleted bounty:** 'Freedom Dive'", some []⟩ := by decide

example :
    (handleRegister "bounty>register Freedom Dive Master 100.0000 150.00" "alice" []).bounties =
    [⟨"Freedom Dive", "Master", "100.0000", "150.00", "alice"⟩] := by decide

example :
    (handleRegister "bounty>register Song master +1 50" "bob" []).bounties =
    [⟨"Song", "Master", "1", "50.00", "bob"⟩] := by decide

/-! ## JSON persistence (bot.py lines 20-37)

`save_bounties` is `json.dump(data, f, indent=4)` on the bounty list;
`load_bounties` is `json.loads` on the file content with the absent / empty /
undecodable cases mapped to `[]`.  The file is modelled as `Option String`
(`none` = absent).  Strings are escaped exactly as Python's
`ensure_ascii=True` encoder does (two-character escapes, `\uXXXX`, surrogate
pairs for astral characters) and decoded as `json.loads` does; the only
deviation is that a decoded lone surrogate — impossible in the output of
`save_bounties` — is a parse failure here because a Lean `Char` cannot hold
it. -/

/-- JSON values.  Numbers keep their source lexeme: no bot code path inspects
a numeric value, and this avoids modelling floats. -/
inductive Json where
  | null
  | bool (b : Bool)
  | num (lexeme : String)
  | str (s : String)
  | arr (elems : List Json)
  | obj (members : List (String × Json))
deriving Repr

/-- Lowercase hex digit character for `n < 16`. -/
def hexDigitChar (n : Nat) : Char :=
  if n < 10 then Char.ofNat (48 + n) else Char.ofNat (87 + n)

/-- Four lowercase hex digits of `n < 0x10000` (Python `'\u%04x'`). -/
def toHex4 (n : Nat) : List Char :=
  [hexDigitChar (n / 4096 % 16), hexDigitChar (n / 256 % 16),
   hexDigitChar (n / 16 % 16), hexDigitChar (n % 16)]

/-- Escape of one character in Python's `ensure_ascii` JSON string encoder:
the seven two-character escapes, printable ASCII verbatim, `\uXXXX` for other
characters below `0x10000`, and a surrogate pair above. -/
def escapeChar (c : Char) : List Char :=
  if c = '"' then ['\\', '"']
  else if c = '\\' then ['\\', '\\']
  else if c.toNat < 0x20 then
    if c = Char.ofNat 8 then ['\\', 'b']
    else if c = '\t' then ['\\', 't']
    else if c = '\n' then ['\\', 'n']
    else if c = Char.ofNat 12 then ['\\', 'f']
    else if c = '\r' then ['\\', 'r']
    else '\\' :: 'u' :: toHex4 c.toNat
  else if c.toNat ≤ 0x7E then [c]
  else if c.toNat < 0x10000 then '\\' :: 'u' :: toHex4 c.toNat
  else
    let n := c.toNat - 0x10000
    '\\' :: 'u' :: toHex4 (0xD800 + n / 0x400) ++ '\\' :: 'u' :: toHex4 (0xDC00 + n % 0x400)

/-- JSON escape of a whole character list. -/
def escapeList (cs : List Char) : List Char := (cs.map escapeChar).flatten

/-- A JSON string literal: quote, escaped body, quote. -/
def quoteStr (s : String) : List Char := '"' :: (escapeList s.data ++ ['"'])

/-- One `"key": "value"` object member as the indent-4 dumper prints it. -/
def memberPair (k v : String) : List Char := quoteStr k ++ (": ").data ++ quoteStr v

/-- Object members separated by `",\n        "` (member indent 8). -/
def serializeMembers : List (String × String) → List Char
  | [] => []
  | [kv] => memberPair kv.1 kv.2
  | kv :: rest => memberPair kv.1 kv.2 ++ (",\n        ").data ++ serializeMembers rest

/-- The five members of a bounty dict, in insertion order (bot.py line
221-227). -/
def bountyPairs (b : Bounty) : List (String × String) :=
  [("song_name", b.song_name), ("difficulty", b.difficulty), ("target", b.target),
   ("amount", b.amount), ("user", b.user)]

/-- One bounty dict as `json.dump(..., indent=4)` renders it as an array
element: members in insertion order at indent 8, braces at indent 4. -/
def serializeBounty (b : Bounty) : List Char :=
  '\x7b' :: (("\n        ").data ++ serializeMembers (bountyPairs b) ++ ("\n    \x7d").data)

/-- The comma-separated array items, `",\n    "` between elements. -/
def serializeItems : List Bounty → List Char
  | [] => []
  | [b] => serializeBounty b
  | b :: rest => serializeBounty b ++ (",\n    ").data ++ serializeItems rest

/-- bot.py `save_bounties` (lines 34-37): the exact file text written by
`json.dump(data, f, indent=4)`. -/
def save_bounties (data : List Bounty) : String :=
  match data with
  | [] => "[]"
  | _ => String.mk (("[\n    ").data ++ serializeItems data ++ ("\n]").data)

/-- JSON whitespace (the characters `json.loads` skips between tokens). -/
def isJsonWs (c : Char) : Bool := c == ' ' || c == '\t' || c == '\n' || c == '\r'

/-- Skip JSON whitespace. -/
def skipWs (cs : List Char) : List Char := cs.dropWhile isJsonWs

/-- Value of one hex digit (either case), as `json.loads` accepts in `\uXXXX`. -/
def hexVal (c : Char) : Option Nat :=
  if '0' ≤ c && c ≤ '9' then some (c.toNat - 48)
  else if 'a' ≤ c && c ≤ 'f' then some (c.toNat - 87)
  else if 'A' ≤ c && c ≤ 'F' then some (c.toNat - 55)
  else none

/-- Four hex digits as one code unit (the `\uXXXX` payload). -/
def hex4 (h1 h2 h3 h4 : Char) : Option Nat :=
  match hexVal h1, hexVal h2, hexVal h3, hexVal h4 with
  | some a, some b, some c, some d => some (((a * 16 + b) * 16 + c) * 16 + d)
  | _, _, _, _ => none

/-- Prepend a decoded code unit to a unit-scan result. -/
def consFstN (n : Nat) : Option (List Nat × List Char) → Option (List Nat × List Char)
  | some (us, r) => some (n :: us, r)
  | none => none

/-- First pass of `json.loads` string scanning after the opening quote:
decode the escapes into UTF-16 code units (strict mode: raw control
characters are an error), stopping at the closing quote. -/
def parseUnits : List Char → Option (List Nat × List Char)
  | [] => none
  | ch :: rest =>
    if ch = '"' then some ([], rest)
    else if ch = '\\' then
      match rest with
      | '"' :: r => consFstN 34 (parseUnits r)
      | '\\' :: r => consFstN 92 (parseUnits r)
      | '/' :: r => consFstN 47 (parseUnits r)
      | 'b' :: r => consFstN 8 (parseUnits r)
      | 'f' :: r => consFstN 12 (parseUnits r)
      | 'n' :: r => consFstN 10 (parseUnits r)
      | 'r' :: r => consFstN 13 (parseUnits r)
      | 't' :: r => consFstN 9 (parseUnits r)
      | 'u' :: h1 :: h2 :: h3 :: h4 :: r =>
        (match hex4 h1 h2 h3 h4 with
         | some m => consFstN m (parseUnits r)
         | none => none)
      | _ => none
    else if ch.toNat < 0x20 then none
    else consFstN ch.toNat (parseUnits rest)

/-- Second pass: combine a high surrogate followed by a low surrogate into
the astral code point, as `json.loads` does.  A lone surrogate — which
`save_bounties` can never emit — is a failure here because a Lean `Char`
cannot represent it. -/
def combineUnits : List Nat → Option (List Char)
  | [] => some []
  | n :: rest =>
    if 0xD800 ≤ n ∧ n ≤ 0xDBFF then
      match rest with
      | m :: rest2 =>
        if 0xDC00 ≤ m ∧ m ≤ 0xDFFF then
          (combineUnits rest2).map
            (fun s => Char.ofNat (0x10000 + (n - 0xD800) * 0x400 + (m - 0xDC00)) :: s)
        else none
      | [] => none
    else if 0xDC00 ≤ n ∧ n ≤ 0xDFFF then none
    else (combineUnits rest).map (fun s => Char.ofNat n :: s)

/-- Model of `json.loads` string scanning after the opening quote: decode
escapes to code units, then combine surrogate pairs. -/
def parseStrBody (cs : List Char) : Option (List Char × List Char) :=
  match parseUnits cs with
  | some (us, rest) =>
    (match combineUnits us with
     | some s => some (s, rest)
     | none => none)
  | none => none

/-- The code units Python's `ensure_ascii` encoder writes for one character:
the character's own code point, or its surrogate pair. -/
def unitsOfChar (c : Char) : List Nat :=
  if c.toNat < 0x10000 then [c.toNat]
  else [0xD800 + (c.toNat - 0x10000) / 0x400, 0xDC00 + (c.toNat - 0x10000) % 0x400]

/-- The code units of a whole string. -/
def unitsOfList (cs : List Char) : List Nat := (cs.map unitsOfChar).flatten

/-- Model of the JSON number regex `-?(0|[1-9]\d*)(\.\d+)?([eE][+-]?\d+)?`,
returning the matched lexeme and the remaining input (longest match of each
group, like the regex). -/
def parseNumber (cs : List Char) : Option (List Char × List Char) :=
  let sgn := match cs with | '-' :: _ => ['-'] | _ => []
  let cs1 := match cs with | '-' :: r => r | r => r
  match cs1.head? with
  | none => none
  | some c =>
    if !isDig c then none
    else
      let ip := if c = '0' then ['0'] else cs1.takeWhile isDig
      let r1 := cs1.drop ip.length
      let fp :=
        match r1 with
        | '.' :: r2 => if (r2.takeWhile isDig).isEmpty then [] else '.' :: r2.takeWhile isDig
        | _ => []
      let r2 := r1.drop fp.length
      let ep :=
        match r2 with
        | e :: r3 =>
          if e = 'e' || e = 'E' then
            let es := match r3 with | '-' :: _ => ['-'] | '+' :: _ => ['+'] | _ => []
            let r4 := r3.drop es.length
            if (r4.takeWhile isDig).isEmpty then [] else e :: es ++ r4.takeWhile isDig
          else []
        | _ => []
      some (sgn ++ ip ++ fp ++ ep, r2.drop ep.length)

/-- Mode tag for the single-function JSON parser: a value, the elements of an
array after `[`, or the members of an object after the opening brace. -/
inductive PMode where
  | val
  | elems
  | membs
deriving Repr, DecidableEq

/-- Match an expected literal tail, returning the remaining input (the
scanner's keyword checks such as `s[idx:idx+4] == 'true'`). -/
def stripLit : List Char → List Char → Option (List Char)
  | [], cs => some cs
  | l :: ls, c :: cs => if c = l then stripLit ls cs else none
  | _ :: _, [] => none

/-- Recursive-descent model of `json.loads`'s scanner.  `fuel` bounds the
recursion depth (structurally, so the kernel can evaluate the parser); the
top-level call supplies more fuel than the input length can consume.  A
value is dispatched on its first character exactly as the Python scanner
does: string, array, object, the `true` / `false` / `null` / `NaN` /
`Infinity` / `-Infinity` literals, or the number regex. -/
def parseP : Nat → PMode → List Char → Option (Json × List Char)
  | 0, _, _ => none
  | fuel + 1, PMode.val, cs =>
    match cs with
    | [] => none
    | c :: rest =>
      if c = '"' then
        (match parseStrBody rest with
         | some (s, r) => some (Json.str (String.mk s), r)
         | none => none)
      else if c = '[' then
        (match skipWs rest with
         | [] => none
         | c1 :: r => if c1 = ']' then some (Json.arr [], r) else parseP fuel PMode.elems (c1 :: r))
      else if c = '\x7b' then
        (match skipWs rest with
         | [] => none
         | c1 :: r => if c1 = '\x7d' then some (Json.obj [], r) else parseP fuel PMode.membs (c1 :: r))
      else if c = 't' then
        (match stripLit ['r', 'u', 'e'] rest with
         | some r => some (Json.bool true, r)
         | none => none)
      else if c = 'f' then
        (match stripLit ['a', 'l', 's', 'e'] rest with
         | some r => some (Json.bool false, r)
         | none => none)
      else if c = 'n' then
        (match stripLit ['u', 'l', 'l'] rest with
         | some r => some (Json.null, r)
         | none => none)
      else if c = 'N' then
        (match stripLit ['a', 'N'] rest with
         | some r => some (Json.num "NaN", r)
         | none => none)
      else if c = 'I' then
        (match stripLit ['n', 'f', 'i', 'n', 'i', 't', 'y'] rest with
         | some r => some (Json.num "Infinity", r)
         | none => none)
      else if c = '-' then
        (match parseNumber cs with
         | some (lex, r) => some (Json.num (String.mk lex), r)
         | none =>
           match stripLit ['I', 'n', 'f', 'i', 'n', 'i', 't', 'y'] rest with
           | some r => some (Json.num "-Infinity", r)
           | none => none)
      else
        (match parseNumber cs with
         | some (lex, r) => some (Json.num (String.mk lex), r)
         | none => none)
  | fuel + 1, PMode.elems, cs =>
    match parseP fuel PMode.val cs with
    | none => none
    | some (v, r) =>
      match skipWs r with
      | [] => none
      | c :: r2 =>
        if c = ',' then
          (match parseP fuel PMode.elems (skipWs r2) with
           | some (Json.arr vs, r3) => some (Json.arr (v :: vs), r3)
           | _ => none)
        else if c = ']' then some (Json.arr [v], r2)
        else none
  | fuel + 1, PMode.membs, cs =>
    match cs with
    | [] => none
    | c0 :: rest =>
      if c0 = '"' then
        (match parseStrBody rest with
         | none => none
         | some (k, r) =>
           match skipWs r with
           | [] => none
           | c1 :: r2 =>
             if c1 = ':' then
               (match parseP fuel PMode.val (skipWs r2) with
                | none => none
                | some (v, r3) =>
                  match skipWs r3 with
                  | [] => none
                  | c2 :: r4 =>
                    if c2 = ',' then
                      (match parseP fuel PMode.membs (skipWs r4) with
                       | some (Json.obj ms, r5) => some (Json.obj ((String.mk k, v) :: ms), r5)
                       | _ => none)
                    else if c2 = '\x7d' then some (Json.obj [(String.mk k, v)], r4)
                    else none)
             else none)
      else none

/-- Model of `json.loads`: skip leading whitespace, scan one value, require
only whitespace afterwards.  `none` models `json.JSONDecodeError`. -/
def pyJsonLoads (s : String) : Option Json :=
  let cs := skipWs s.data
  match parseP (cs.length + 1) PMode.val cs with
  | some (v, rest) => if (skipWs rest).isEmpty then some v else none
  | none => none

/-- Result of `load_bounties`: the value the function returns and whether the
"Could not decode" diagnostic was printed. -/
structure LoadResult where
  data : Json
  warned : Bool

/-- bot.py `load_bounties` (lines 20-32): absent file → `[]`; empty content →
`[]`; undecodable content → warning and `[]`; otherwise whatever JSON value
the file holds. -/
def load_bounties (file : Option String) : LoadResult :=
  match file with
  | none => ⟨Json.arr [], false⟩
  | some content =>
    if content = "" then ⟨Json.arr [], false⟩
    else
      match pyJsonLoads content with
      | some v => ⟨v, false⟩
      | none => ⟨Json.arr [], true⟩

/-- Python dict lookup for an object built from a member list: the last
binding of a key wins. -/
def objGet (ms : List (String × Json)) (k : String) : Option Json :=
  ms.foldl (fun acc kv => if kv.1 = k then some kv.2 else acc) none

/-- The JSON encoding of one bounty record (the dict of bot.py line 221-227). -/
def bountyToJson (b : Bounty) : Json :=
  Json.obj [("song_name", Json.str b.song_name), ("difficulty", Json.str b.difficulty),
    ("target", Json.str b.target), ("amount", Json.str b.amount), ("user", Json.str b.user)]

/-- Read one bounty record back from a JSON object, field for field. -/
def jsonToBounty : Json → Option Bounty
  | Json.obj ms =>
    (match objGet ms "song_name", objGet ms "difficulty", objGet ms "target",
           objGet ms "amount", objGet ms "user" with
     | some (Json.str sn), some (Json.str df), some (Json.str tg),
       some (Json.str am), some (Json.str us) => some ⟨sn, df, tg, am, us⟩
     | _, _, _, _, _ => none)
  | _ => none

/-- Read a whole bounty sequence back from a JSON array. -/
def decodeBounties : Json → Option (List Bounty)
  | Json.arr xs => xs.mapM jsonToBounty
  | _ => none

example : jsonToBounty (bountyToJson ⟨"a", "b", "c", "d", "e"⟩) = some ⟨"a", "b", "c", "d", "e"⟩ :=
  rfl

example :
    pyJsonLoads (save_bounties [⟨"a\nb", "M", "1", "1.00", "u"⟩]) =
    some (Json.arr [bountyToJson ⟨"a\nb", "M", "1", "1.00", "u"⟩]) := by rfl

example : pyJsonLoads "oops" = none := by rfl
example : pyJsonLoads "[1,]" = none := by rfl
example : pyJsonLoads "  [ \"a\" , \"b\" ]  " = some (Json.arr [Json.str "a", Json.str "b"]) := by
  rfl

/-! # Theorems for the specification claims -/

/-- Python floor division `k // 10` on a natural number agrees with `Nat`
division. -/
theorem fdiv_cast_ten : ∀ k : Nat, Int.fdiv ((k : Nat) : Int) 10 = ((k / 10 : Nat) : Int)
  | 0 => rfl
  | _ + 1 => rfl

/-- C7: for a non-empty bounty list of `N` records the paginator's page count
is `ceil (N / 10)`; "previous" on page 0 and "next" on the last page are
no-ops; and both transitions keep an in-range current page within
`[0, total_pages - 1]`. -/
theorem c7_paginator_pages (l : List Bounty) (v : BountyPaginator) (hl : l ≠ []) :
    ((paginatorInit l).total_pages = ((l.length + 9) / 10 : Nat)) ∧
    (v.current_page = 0 → previous_page v = v) ∧
    (v.current_page = v.total_pages - 1 → next_page v = v) ∧
    (0 ≤ v.current_page → v.current_page ≤ v.total_pages - 1 →
      0 ≤ (previous_page v).current_page ∧
        (previous_page v).current_page ≤ v.total_pages - 1 ∧
        0 ≤ (next_page v).current_page ∧ (next_page v).current_page ≤ v.total_pages - 1) := by
  refine ⟨?_, ?_, ?_, ?_⟩
  · have hpos : 1 ≤ l.length := List.length_pos.mpr hl
    have h1 : (l.length : Int) - 1 = ((l.length - 1 : Nat) : Int) := by omega
    simp only [paginatorInit, h1]
    rw [fdiv_cast_ten]
    omega
  · intro h0
    simp [previous_page, h0]
  · intro hlast
    simp [next_page, hlast]
  · intro h0 hle
    have hp : (previous_page v).current_page =
        if 0 < v.current_page then v.current_page - 1 else v.current_page := by
      by_cases hc : 0 < v.current_page <;> simp [previous_page, hc]
    have hn : (next_page v).current_page =
        if v.current_page < v.total_pages - 1 then v.current_page + 1 else v.current_page := by
      by_cases hc : v.current_page < v.total_pages - 1 <;> simp [next_page, hc]
    rw [hp, hn]
    refine ⟨?_, ?_, ?_, ?_⟩ <;> split <;> omega

/-- C7 witness: instance at a concrete one-record list and the paginator
state it creates. -/
theorem c7_paginator_pages_witness :
    ([(⟨"a", "b", "c", "d", "e"⟩ : Bounty)] ≠ []) ∧
    (paginatorInit [(⟨"a", "b", "c", "d", "e"⟩ : Bounty)]).total_pages = 1 :=
  ⟨by decide, (c7_paginator_pages [⟨"a", "b", "c", "d", "e"⟩]
    (paginatorInit [⟨"a", "b", "c", "d", "e"⟩]) (by decide)).1⟩

/-- C9 counterexample: a 28-character song name (longer than 27) is rendered
unchanged by the list table, not truncated to 27 characters plus an
ellipsis, because the code truncates only names longer than 30. -/
theorem c9_counterexample :
    ("abcdefghijklmnopqrstuvwxyzAB" : String).length = 28 ∧
    displaySongName "abcdefghijklmnopqrstuvwxyzAB" = "abcdefghijklmnopqrstuvwxyzAB" ∧
    displaySongName "abcdefghijklmnopqrstuvwxyzAB" ≠
      ("abcdefghijklmnopqrstuvwxyzAB" : String).take 27 ++ "..." := by
  refine ⟨by decide, by decide, by decide⟩

/-- C9 (amended): a song name longer than 30 characters is displayed as its
first 27 characters followed by an ellipsis, and a song name of 30 characters
or fewer is displayed unchanged. -/
theorem c9_display_song_name (s : String) :
    (30 < s.length → displaySongName s = s.take 27 ++ "...") ∧
    (s.length ≤ 30 → displaySongName s = s) := by
  unfold displaySongName
  constructor
  · intro h
    rw [if_pos h]
  · intro h
    rw [if_neg (by omega)]

/-- C9 witness: both branches of the amended claim at concrete names. -/
theorem c9_display_song_name_witness :
    (30 < ("abcdefghijklmnopqrstuvwxyz01234" : String).length ∧
      displaySongName "abcdefghijklmnopqrstuvwxyz01234" =
        ("abcdefghijklmnopqrstuvwxyz01234" : String).take 27 ++ "...") ∧
    (("Freedom Dive" : String).length ≤ 30 ∧
      displaySongName "Freedom Dive" = "Freedom Dive") :=
  ⟨⟨by decide, (c9_display_song_name "abcdefghijklmnopqrstuvwxyz01234").1 (by decide)⟩,
    ⟨by decide, (c9_display_song_name "Freedom Dive").2 (by decide)⟩⟩

/-- C4: a relay command whose first whitespace-delimited token is not in the
allow-list (case-insensitively) is rejected with the fixed error message and
is never forwarded over the remote console connection. -/
theorem c4_relay_gate (allow : List String) (cmd : String)
    (h : (allow.map pyLower).contains (pyLower (firstToken cmd)) = false) :
    relayHandler allow cmd = RelayAction.rejected relayRejectMsg ∧
    ∀ c, relayHandler allow cmd ≠ RelayAction.forwarded c := by
  unfold relayHandler
  rw [h]
  exact ⟨rfl, fun c => by simp⟩

/-- C4 witness: `stop` is not the permitted keyword, so `stop now` is
rejected and not forwarded. -/
theorem c4_relay_gate_witness :
    ((["whitelist"].map pyLower).contains (pyLower (firstToken "stop now")) = false) ∧
    relayHandler ["whitelist"] "stop now" = RelayAction.rejected relayRejectMsg :=
  ⟨by decide, (c4_relay_gate ["whitelist"] "stop now" (by decide)).1⟩

/-- C6: `load_bounties` returns the empty sequence (and no exception
propagates — the model is a total function) for an absent file and for empty
content, and returns the empty sequence with the decode diagnostic for
content `json.loads` cannot parse. -/
theorem c6_load_fallback :
    (load_bounties none = ⟨Json.arr [], false⟩) ∧
    (load_bounties (some "") = ⟨Json.arr [], false⟩) ∧
    ∀ s : String, s ≠ "" → pyJsonLoads s = none →
      load_bounties (some s) = ⟨Json.arr [], true⟩ := by
  refine ⟨rfl, rfl, ?_⟩
  intro s hne hparse
  rw [show load_bounties (some s) =
      (if s = "" then ⟨Json.arr [], false⟩ else
        match pyJsonLoads s with
        | some v => ⟨v, false⟩
        | none => ⟨Json.arr [], true⟩) from rfl]
  rw [if_neg hne, hparse]

/-- C8: `validate_difficulty` returns `Re:Master` exactly when the lowercased
input contains `re`, `master` and a colon; otherwise it maps each of the five
standard names (matched on the whole lowercased input) to its canonical form
and everything else to the no-match sentinel `none`. -/
theorem c8_validate_difficulty (s : String) :
    (validate_difficulty s = some "Re:Master" ↔
      (strHasSub "re" (pyLower s) && strHasSub "master" (pyLower s) &&
        strHasSub ":" (pyLower s)) = true) ∧
    ((strHasSub "re" (pyLower s) && strHasSub "master" (pyLower s) &&
        strHasSub ":" (pyLower s)) = false →
      (∀ p ∈ [("easy", "Easy"), ("basic", "Basic"), ("advanced", "Advanced"),
          ("expert", "Expert"), ("master", "Master")],
        pyLower s = p.1 → validate_difficulty s = some p.2) ∧
      (validate_difficulty s = none ↔
        pyLower s ∉ ["easy", "basic", "advanced", "expert", "master"])) := by
  by_cases hb : (strHasSub "re" (pyLower s) && strHasSub "master" (pyLower s) &&
      strHasSub ":" (pyLower s)) = true
  · refine ⟨⟨fun _ => hb, fun _ => ?_⟩, fun hf => absurd hb (by simp [hf])⟩
    simp [validate_difficulty, hb]
  · have hf : (strHasSub "re" (pyLower s) && strHasSub "master" (pyLower s) &&
        strHasSub ":" (pyLower s)) = false := by
      revert hb
      cases strHasSub "re" (pyLower s) && strHasSub "master" (pyLower s) &&
        strHasSub ":" (pyLower s) <;> simp
    have hv : validate_difficulty s =
        [("easy", "Easy"), ("basic", "Basic"), ("advanced", "Advanced"),
         ("expert", "Expert"), ("master", "Master")].lookup (pyLower s) := by
      simp [validate_difficulty, hf]
    refine ⟨?_, fun _ => ⟨?_, ?_⟩⟩
    · by_cases h1 : pyLower s = "easy"
      · rw [hv, h1]; decide
      by_cases h2 : pyLower s = "basic"
      · rw [hv, h2]; decide
      by_cases h3 : pyLower s = "advanced"
      · rw [hv, h3]; decide
      by_cases h4 : pyLower s = "expert"
      · rw [hv, h4]; decide
      by_cases h5 : pyLower s = "master"
      · rw [hv, h5]; decide
      · have e1 : (pyLower s == "easy") = false := beq_eq_false_iff_ne.mpr h1
        have e2 : (pyLower s == "basic") = false := beq_eq_false_iff_ne.mpr h2
        have e3 : (pyLower s == "advanced") = false := beq_eq_false_iff_ne.mpr h3
        have e4 : (pyLower s == "expert") = false := beq_eq_false_iff_ne.mpr h4
        have e5 : (pyLower s == "master") = false := beq_eq_false_iff_ne.mpr h5
        rw [hv]
        simp [List.lookup, e1, e2, e3, e4, e5, hf]
    · intro p hp hkey
      rw [hv, hkey]
      fin_cases hp <;> rfl
    · by_cases h1 : pyLower s = "easy"
      · rw [hv, h1]; decide
      by_cases h2 : pyLower s = "basic"
      · rw [hv, h2]; decide
      by_cases h3 : pyLower s = "advanced"
      · rw [hv, h3]; decide
      by_cases h4 : pyLower s = "expert"
      · rw [hv, h4]; decide
      by_cases h5 : pyLower s = "master"
      · rw [hv, h5]; decide
      · have e1 : (pyLower s == "easy") = false := beq_eq_false_iff_ne.mpr h1
        have e2 : (pyLower s == "basic") = false := beq_eq_false_iff_ne.mpr h2
        have e3 : (pyLower s == "advanced") = false := beq_eq_false_iff_ne.mpr h3
        have e4 : (pyLower s == "expert") = false := beq_eq_false_iff_ne.mpr h4
        have e5 : (pyLower s == "master") = false := beq_eq_false_iff_ne.mpr h5
        rw [hv]
        simp [List.lookup, e1, e2, e3, e4, e5, h1, h2, h3, h4, h5]

/-- C8 witness: the Re:Master branch and a canonical-name branch at concrete
inputs. -/
theorem c8_validate_difficulty_witness :
    validate_difficulty "Re:MASTER" = some "Re:Master" ∧
    ((strHasSub "re" (pyLower "expert") && strHasSub "master" (pyLower "expert") &&
        strHasSub ":" (pyLower "expert")) = false ∧
      validate_difficulty "expert" = some "Expert") :=
  ⟨(c8_validate_difficulty "Re:MASTER").1.mpr (by decide),
    ⟨by decide,
      ((c8_validate_difficulty "expert").2 (by decide)).1 ("expert", "Expert") (by decide) rfl⟩⟩

/-- Removing a member shortens the list by exactly one. -/
theorem removeFirst_length {l : List Bounty} {b : Bounty} (h : b ∈ l) :
    (removeFirst l b).length + 1 = l.length := by
  induction l with
  | nil => cases h
  | cons x xs ih =>
    by_cases hx : x = b
    · simp [removeFirst, hx]
    · have hb : b ∈ xs := by
        rcases List.mem_cons.mp h with h1 | h1
        · exact absurd h1.symm hx
        · exact h1
      have := ih hb
      simp only [removeFirst, if_neg hx, List.length_cons]
      omega

/-- Removing a member drops exactly one occurrence of it. -/
theorem removeFirst_count_self {l : List Bounty} {b : Bounty} (h : b ∈ l) :
    (removeFirst l b).count b + 1 = l.count b := by
  induction l with
  | nil => cases h
  | cons x xs ih =>
    by_cases hx : x = b
    · subst hx
      simp [removeFirst]
    · have hb : b ∈ xs := by
        rcases List.mem_cons.mp h with h1 | h1
        · exact absurd h1.symm hx
        · exact h1
      have hbx : (b == x) = false := beq_eq_false_iff_ne.mpr (fun e => hx e.symm)
      have := ih hb
      simp only [removeFirst, if_neg hx, List.count_cons, hbx, if_neg]
      omega

/-- Removing one element leaves the occurrence count of every other element
unchanged. -/
theorem removeFirst_count_other {b x : Bounty} (h : x ≠ b) (l : List Bounty) :
    (removeFirst l b).count x = l.count x := by
  induction l with
  | nil => rfl
  | cons y ys ih =>
    by_cases hy : y = b
    · subst hy
      have hxy : (y == x) = false := beq_eq_false_iff_ne.mpr (fun e => h e.symm)
      rw [show removeFirst (y :: ys) y = ys from by simp [removeFirst]]
      rw [List.count_cons, hxy]
      simp
    · simp only [removeFirst, if_neg hy, List.count_cons, ih]

/-- The delete branch, unfolded past the non-empty-query check into its
three-way match on the requester's matches. -/
theorem handleDelete_eq (content author : String) (l : List Bounty)
    (hq : pyLower (pyStrip (content.drop 14)) ≠ "") :
    handleDelete content author l =
      match l.filter (deleteMatches (pyLower (pyStrip (content.drop 14))) author) with
      | [] => ⟨l, "❌ **Error:** No bounty found matching that name under your user.", none⟩
      | [b] => ⟨removeFirst l b,
          "✅ **Successfully deleted bounty:** '" ++ b.song_name ++ "'",
          some (removeFirst l b)⟩
      | ms => ⟨l,
          "Found multiple bounties matching your query. Please be more specific.\nHere are the matches:\n"
            ++ String.join (ms.map (fun m => "- " ++ m.song_name ++ "\n")), none⟩ := by
  rcases hms : l.filter (deleteMatches (pyLower (pyStrip (content.drop 14))) author) with
      _ | ⟨b, _ | ⟨b2, t⟩⟩ <;>
    · simp only [handleDelete]
      rw [if_neg hq, hms]

/-- C3: with a non-empty delete query, zero matches leave the list and the
file untouched and report the not-found error; exactly one match removes
exactly that record (one fewer occurrence of it, all other records'
occurrence counts unchanged) and saves immediately; several matches list the
matching song names and leave the list and the file untouched. -/
theorem c3_delete_semantics (content author : String) (l : List Bounty)
    (hq : pyLower (pyStrip (content.drop 14)) ≠ "") :
    (l.filter (deleteMatches (pyLower (pyStrip (content.drop 14))) author) = [] →
      handleDelete content author l =
        ⟨l, "❌ **Error:** No bounty found matching that name under your user.", none⟩) ∧
    (∀ b, l.filter (deleteMatches (pyLower (pyStrip (content.drop 14))) author) = [b] →
      handleDelete content author l =
        ⟨removeFirst l b, "✅ **Successfully deleted bounty:** '" ++ b.song_name ++ "'",
          some (removeFirst l b)⟩ ∧
      b ∈ l ∧
      (removeFirst l b).length + 1 = l.length ∧
      (removeFirst l b).count b + 1 = l.count b ∧
      (∀ x, x ≠ b → (removeFirst l b).count x = l.count x)) ∧
    (∀ m1 m2 ms,
      l.filter (deleteMatches (pyLower (pyStrip (content.drop 14))) author) = m1 :: m2 :: ms →
      handleDelete content author l =
        ⟨l,
          "Found multiple bounties matching your query. Please be more specific.\nHere are the matches:\n"
            ++ String.join ((m1 :: m2 :: ms).map (fun m => "- " ++ m.song_name ++ "\n")),
          none⟩) := by
  refine ⟨?_, ?_, ?_⟩
  · intro h
    rw [handleDelete_eq content author l hq, h]
  · intro b h
    have hmem : b ∈ l := by
      have : b ∈ l.filter (deleteMatches (pyLower (pyStrip (content.drop 14))) author) := by
        rw [h]; exact List.mem_singleton.mpr rfl
      exact (List.mem_filter.mp this).1
    refine ⟨?_, hmem, removeFirst_length hmem, removeFirst_count_self hmem,
      fun x hx => removeFirst_count_other hx l⟩
    rw [handleDelete_eq content author l hq, h]
  · intro m1 m2 ms h
    rw [handleDelete_eq content author l hq, h]

/-- C3 witness: the three branches at concrete stores and queries. -/
theorem c3_delete_semantics_witness :
    (pyLower (pyStrip (("bounty>delete zzz" : String).drop 14)) ≠ "") ∧
    handleDelete "bounty>delete zzz" "alice"
        [⟨"Freedom Dive", "Master", "100.0000", "150.00", "alice"⟩] =
      ⟨[⟨"Freedom Dive", "Master", "100.0000", "150.00", "alice"⟩],
        "❌ **Error:** No bounty found matching that name under your user.", none⟩ :=
  ⟨by decide,
    (c3_delete_semantics "bounty>delete zzz" "alice"
      [⟨"Freedom Dive", "Master", "100.0000", "150.00", "alice"⟩] (by decide)).1 (by decide)⟩

/-- Every branch of the register handler either keeps the bounty list or
appends a single new record. -/
theorem handleRegister_bounties_cases (c a : String) (l : List Bounty) :
    (handleRegister c a l).bounties = l ∨
    ∃ b, (handleRegister c a l).bounties = l ++ [b] := by
  have h : ∀ r : HandlerResult, handleRegister c a l = r →
      r.bounties = l ∨ ∃ b, r.bounties = l ++ [b] := by
    intro r hr
    simp only [handleRegister] at hr
    split at hr
    · rw [← hr]; exact Or.inl rfl
    · split at hr
      · split at hr
        · rw [← hr]; exact Or.inl rfl
        · split at hr
          · rw [← hr]; exact Or.inl rfl
          · split at hr
            · rw [← hr]; exact Or.inl rfl
            · rw [← hr]; exact Or.inl rfl
            · split at hr
              · rw [← hr]; exact Or.inl rfl
              · rw [← hr]; exact Or.inl rfl
              · rw [← hr]; exact Or.inr ⟨_, rfl⟩
      · rw [← hr]; exact Or.inl rfl
  exact h _ rfl

/-- C10: when a record occurs at least twice, a delete query that matches it
always takes the ambiguous branch (list unchanged, nothing saved); any delete
leaves its occurrence count unchanged; and registration can only grow it, so
"occurs at least twice" is preserved by both mutating operations. -/
theorem c10_duplicate_never_deleted (content author regContent regAuthor : String)
    (l : List Bounty) (r : Bounty) (hc : 2 ≤ l.count r) :
    (deleteMatches (pyLower (pyStrip (content.drop 14))) author r = true →
      (handleDelete content author l).bounties = l ∧
      (handleDelete content author l).saved = none) ∧
    ((handleDelete content author l).bounties.count r = l.count r) ∧
    (2 ≤ (handleDelete content author l).bounties.count r) ∧
    (2 ≤ ((handleRegister regContent regAuthor l).bounties.count r)) := by
  have hreg : 2 ≤ ((handleRegister regContent regAuthor l).bounties.count r) := by
    rcases handleRegister_bounties_cases regContent regAuthor l with h | ⟨b, h⟩
    · rw [h]; exact hc
    · rw [h, List.count_append]
      omega
  by_cases hq : pyLower (pyStrip (content.drop 14)) = ""
  · have hid : handleDelete content author l =
        ⟨l, "❌ **Invalid Format.** Please provide a song name to delete.", none⟩ := by
      simp only [handleDelete]
      rw [if_pos hq]
    rw [hid]
    exact ⟨fun _ => ⟨rfl, rfl⟩, rfl, hc, hreg⟩
  · have hcount : (handleDelete content author l).bounties.count r = l.count r := by
      rw [handleDelete_eq content author l hq]
      rcases hms : l.filter (deleteMatches (pyLower (pyStrip (content.drop 14))) author) with
          _ | ⟨b, _ | ⟨b2, t⟩⟩
      · rfl
      · have hbr : r ≠ b := by
          intro e
          subst e
          have hrmem : r ∈ l.filter (deleteMatches (pyLower (pyStrip (content.drop 14))) author) := by
            rw [hms]; exact List.mem_singleton.mpr rfl
          have hmatch : deleteMatches (pyLower (pyStrip (content.drop 14))) author r = true :=
            (List.mem_filter.mp hrmem).2
          have hfc := List.count_filter (l := l) hmatch
          rw [hms] at hfc
          simp at hfc
          omega
        exact removeFirst_count_other hbr l
      · rfl
    refine ⟨?_, hcount, by omega, hreg⟩
    intro hmatch
    have hfc := List.count_filter (l := l) (p := deleteMatches (pyLower (pyStrip (content.drop 14))) author) hmatch
    have hlen := List.count_le_length r
      (l.filter (deleteMatches (pyLower (pyStrip (content.drop 14))) author))
    rw [handleDelete_eq content author l hq]
    rcases hms : l.filter (deleteMatches (pyLower (pyStrip (content.drop 14))) author) with
        _ | ⟨b, _ | ⟨b2, t⟩⟩
    · exact ⟨rfl, rfl⟩
    · rw [hms] at hfc hlen
      simp at hlen
      omega
    · exact ⟨rfl, rfl⟩

/-- C10 witness: a store holding the same record twice; a query matching it
changes nothing. -/
theorem c10_duplicate_never_deleted_witness :
    (2 ≤ ([⟨"Dup", "Master", "1", "1.00", "al"⟩, ⟨"Dup", "Master", "1", "1.00", "al"⟩] :
        List Bounty).count ⟨"Dup", "Master", "1", "1.00", "al"⟩) ∧
    (deleteMatches (pyLower (pyStrip (("bounty>delete dup" : String).drop 14))) "al"
        ⟨"Dup", "Master", "1", "1.00", "al"⟩ = true ∧
      (handleDelete "bounty>delete dup" "al"
          [⟨"Dup", "Master", "1", "1.00", "al"⟩, ⟨"Dup", "Master", "1", "1.00", "al"⟩]).bounties =
        [⟨"Dup", "Master", "1", "1.00", "al"⟩, ⟨"Dup", "Master", "1", "1.00", "al"⟩]) :=
  ⟨by decide,
    ⟨by decide,
      ((c10_duplicate_never_deleted "bounty>delete dup" "al" "x" "y"
        [⟨"Dup", "Master", "1", "1.00", "al"⟩, ⟨"Dup", "Master", "1", "1.00", "al"⟩]
        ⟨"Dup", "Master", "1", "1.00", "al"⟩ (by decide)).1 (by decide)).1⟩⟩

/-- The scaled comparison of nonnegative finite decimals agrees with the
rational ordering of their values. -/
theorem finScaleLe_correct (c1 : Nat) (e1 : Int) (c2 : Nat) (e2 : Int) :
    finScaleLe c1 e1 c2 e2 =
      decide ((c1 : ℚ) * (10 : ℚ) ^ e1 ≤ (c2 : ℚ) * (10 : ℚ) ^ e2) := by
  unfold finScaleLe
  rw [decide_eq_decide]
  have hne : (10 : ℚ) ≠ 0 := by norm_num
  have h10 : (0 : ℚ) < (10 : ℚ) ^ (min e1 e2) := zpow_pos (by norm_num) _
  rw [← Nat.cast_le (α := ℚ)]
  push_cast
  rw [← zpow_natCast (10 : ℚ) (e1 - min e1 e2).toNat,
    ← zpow_natCast (10 : ℚ) (e2 - min e1 e2).toNat]
  rw [Int.toNat_of_nonneg (by omega), Int.toNat_of_nonneg (by omega)]
  conv_lhs => rw [← mul_le_mul_right h10]
  rw [mul_assoc, mul_assoc, ← zpow_add₀ hne, ← zpow_add₀ hne]
  rw [show e1 - min e1 e2 + min e1 e2 = e1 from by omega,
    show e2 - min e1 e2 + min e1 e2 = e2 from by omega]

/-- Value of a nonnegative finite decimal. -/
theorem decValue_pos_eq (c : Nat) (e : Int) :
    decValue (.finite false c e) = (c : ℚ) * (10 : ℚ) ^ e := by
  simp [decValue]

/-- Value of a negative finite decimal. -/
theorem decValue_neg_eq (c : Nat) (e : Int) :
    decValue (.finite true c e) = -((c : ℚ) * (10 : ℚ) ^ e) := by
  simp [decValue]

/-- `decLe` on finite decimals decides the rational ordering of their
values. -/
theorem decLe_fin_correct (s1 : Bool) (c1 : Nat) (e1 : Int) (s2 : Bool) (c2 : Nat) (e2 : Int) :
    decLe (.finite s1 c1 e1) (.finite s2 c2 e2) =
      some (decide (decValue (.finite s1 c1 e1) ≤ decValue (.finite s2 c2 e2))) := by
  have h1 : (0 : ℚ) ≤ (c1 : ℚ) * (10 : ℚ) ^ e1 := by positivity
  have h2 : (0 : ℚ) ≤ (c2 : ℚ) * (10 : ℚ) ^ e2 := by positivity
  cases s1 <;> cases s2
  · show some (finScaleLe c1 e1 c2 e2) = _
    rw [finScaleLe_correct, decValue_pos_eq, decValue_pos_eq]
  · show some (c1 == 0 && c2 == 0) = _
    rw [decValue_pos_eq, decValue_neg_eq]
    congr 1
    rw [show (c1 == 0 && c2 == 0) = decide (c1 = 0 ∧ c2 = 0) from by
      by_cases hc1 : c1 = 0 <;> by_cases hc2 : c2 = 0 <;> simp [hc1, hc2]]
    rw [decide_eq_decide]
    constructor
    · rintro ⟨hc1, hc2⟩
      simp [hc1, hc2]
    · intro hle
      have hz1 : (c1 : ℚ) * (10 : ℚ) ^ e1 = 0 := le_antisymm (by linarith) h1
      have hz2 : (c2 : ℚ) * (10 : ℚ) ^ e2 = 0 := by
        by_contra hzz
        have hlt : (0 : ℚ) < (c2 : ℚ) * (10 : ℚ) ^ e2 := lt_of_le_of_ne h2 (Ne.symm hzz)
        linarith
      constructor
      · rcases mul_eq_zero.mp hz1 with h | h
        · exact_mod_cast h
        · exact absurd h (zpow_ne_zero _ (by norm_num))
      · rcases mul_eq_zero.mp hz2 with h | h
        · exact_mod_cast h
        · exact absurd h (zpow_ne_zero _ (by norm_num))
  · show some true = _
    rw [decValue_neg_eq, decValue_pos_eq]
    congr 1
    exact (decide_eq_true (le_trans (neg_nonpos.mpr h1) h2)).symm
  · show some (finScaleLe c2 e2 c1 e1) = _
    rw [finScaleLe_correct, decValue_neg_eq, decValue_neg_eq]
    congr 1
    rw [decide_eq_decide]
    exact neg_le_neg_iff.symm

/-- The chained range check `Decimal('0') <= d <= hi` on a finite decimal is
the rational range condition. -/
theorem chainLe_fin (hi : Nat) (sb : Bool) (c : Nat) (e : Int) :
    chainLe dec0 (.finite sb c e) (.finite false hi 0) =
      some (decide (0 ≤ decValue (.finite sb c e) ∧ decValue (.finite sb c e) ≤ (hi : ℚ))) := by
  unfold chainLe
  rw [show dec0 = PyDec.finite false 0 0 from rfl]
  rw [decLe_fin_correct]
  rw [show decValue (PyDec.finite false 0 0) = 0 from by simp [decValue]]
  by_cases h0 : (0 : ℚ) ≤ decValue (.finite sb c e)
  · rw [decide_eq_true h0]
    show decLe (PyDec.finite sb c e) (PyDec.finite false hi 0) = _
    rw [decLe_fin_correct]
    rw [show decValue (PyDec.finite false hi 0) = (hi : ℚ) from by simp [decValue]]
    congr 1
    rw [decide_eq_decide]
    exact ⟨fun h => ⟨h0, h⟩, fun h => h.2⟩
  · rw [decide_eq_false h0]
    show some false = _
    congr 1
    exact (decide_eq_false fun hh => h0 hh.1).symm

/-- C1 counterexample: on input `"1.23 "` (trailing space) the cleaned text
parses as the exact decimal 1.23, which lies in `[0, 1000000]` and has only
two digits after the decimal point, yet `validate_amount` fails, because the
code counts every character after the last `'.'` (here `"23 "`, length 3),
not just digits. -/
theorem c1_counterexample :
    stripCommas "1.23 " = "1.23 " ∧
    parseDec "1.23 " = some (PyDec.finite false 123 (-2)) ∧
    (PyDec.finite false 123 (-2)).isFinite = true ∧
    (0 : ℚ) ≤ decValue (PyDec.finite false 123 (-2)) ∧
    decValue (PyDec.finite false 123 (-2)) ≤ 1000000 ∧
    digitsAfterLastDot "1.23 " = 2 ∧
    validate_amount "1.23 " =
      (none, some "Amount can have a maximum of 2 decimal places.") := by
  refine ⟨by decide, by decide, by decide, ?_, ?_, by decide, by decide⟩
  · norm_num [decValue]
  · norm_num [decValue]

/-- `validate_amount`, unfolded into its decision chain. -/
theorem validate_amount_eq (s : String) :
    validate_amount s =
      match parseDec (stripCommas s) with
      | none => (none, some "Amount must be a valid number.")
      | some amount =>
        match chainLe dec0 amount dec1e6 with
        | none => (none, some "Amount must be a valid number.")
        | some false => (none, some "Amount must be between 0 and 1,000,000.")
        | some true =>
          if hasDot (stripCommas s) && decide (afterLastDotLen (stripCommas s) > 2) then
            (none, some "Amount can have a maximum of 2 decimal places.")
          else (some (quantize2 amount), none) := rfl

/-- `validate_amount` on unparseable cleaned text. -/
theorem validate_amount_parse_none (s : String) (hp : parseDec (stripCommas s) = none) :
    validate_amount s = (none, some "Amount must be a valid number.") := by
  rw [validate_amount_eq, hp]

/-- `validate_amount` on NaN: the range comparison raises `InvalidOperation`,
caught by the same handler as a parse failure. -/
theorem validate_amount_parse_nan (s : String) (b : Bool)
    (hp : parseDec (stripCommas s) = some (.nan b)) :
    validate_amount s = (none, some "Amount must be a valid number.") := by
  rw [validate_amount_eq, hp]
  rfl

/-- `validate_amount` on an infinity: out of range. -/
theorem validate_amount_parse_inf (s : String) (b : Bool)
    (hp : parseDec (stripCommas s) = some (.infinity b)) :
    validate_amount s = (none, some "Amount must be between 0 and 1,000,000.") := by
  cases b <;> (rw [validate_amount_eq, hp]; rfl)

/-- `validate_amount` on a finite parsed value, as a pair of plain
conditionals. -/
theorem validate_amount_parse_fin (s : String) (sb : Bool) (c : Nat) (e : Int)
    (hp : parseDec (stripCommas s) = some (.finite sb c e)) :
    validate_amount s =
      if 0 ≤ decValue (.finite sb c e) ∧ decValue (.finite sb c e) ≤ (1000000 : ℚ) then
        if hasDot (stripCommas s) && decide (afterLastDotLen (stripCommas s) > 2) then
          (none, some "Amount can have a maximum of 2 decimal places.")
        else (some (quantize2 (.finite sb c e)), none)
      else (none, some "Amount must be between 0 and 1,000,000.") := by
  rw [validate_amount_eq, hp]
  show (match chainLe dec0 (PyDec.finite sb c e) dec1e6 with
    | none => (none, some "Amount must be a valid number.")
    | some false => (none, some "Amount must be between 0 and 1,000,000.")
    | some true =>
      if hasDot (stripCommas s) && decide (afterLastDotLen (stripCommas s) > 2) then
        (none, some "Amount can have a maximum of 2 decimal places.")
      else (some (quantize2 (PyDec.finite sb c e)), none)) = _
  rw [show dec1e6 = PyDec.finite false 1000000 0 from rfl, chainLe_fin]
  rw [show ((1000000 : Nat) : ℚ) = (1000000 : ℚ) from by norm_num]
  by_cases hP : 0 ≤ decValue (.finite sb c e) ∧ decValue (.finite sb c e) ≤ (1000000 : ℚ)
  · rw [decide_eq_true hP, if_pos hP]
  · rw [decide_eq_false hP, if_neg hP]

/-- C1 (amended): `validate_amount` succeeds iff the comma-stripped text
parses as a finite decimal lying in `[0, 1000000]` whose text has at most two
characters after its last decimal point; on success it returns the parsed
value quantized to two fractional digits, and on failure a null value with a
reason. -/
theorem c1_validate_amount (s : String) :
    ((validate_amount s).2 = none ↔
      ∃ d, parseDec (stripCommas s) = some d ∧ d.isFinite = true ∧
        0 ≤ decValue d ∧ decValue d ≤ 1000000 ∧
        (hasDot (stripCommas s) = true → afterLastDotLen (stripCommas s) ≤ 2)) ∧
    (∀ d, parseDec (stripCommas s) = some d → (validate_amount s).2 = none →
      validate_amount s = (some (quantize2 d), none)) ∧
    ((validate_amount s).1.isSome = true ↔ (validate_amount s).2 = none) ∧
    ((validate_amount s).2 ≠ none → (validate_amount s).1 = none) := by
  rcases hp : parseDec (stripCommas s) with _ | d
  · have hv := validate_amount_parse_none s hp
    simp [hv, hp]
  · rcases d with ⟨sb, c, e⟩ | b | b
    · have hv := validate_amount_parse_fin s sb c e hp
      by_cases hr : 0 ≤ decValue (.finite sb c e) ∧ decValue (.finite sb c e) ≤ (1000000 : ℚ)
      · rw [if_pos hr] at hv
        by_cases hf : (hasDot (stripCommas s) &&
            decide (afterLastDotLen (stripCommas s) > 2)) = true
        · rw [if_pos hf] at hv
          refine ⟨?_, ?_, ?_, ?_⟩
          · rw [hv]
            constructor
            · intro h
              exact absurd h (by simp)
            · rintro ⟨d, hd, _, _, _, hfr⟩
              cases hd
              have hf2 : hasDot (stripCommas s) = true ∧
                  decide (afterLastDotLen (stripCommas s) > 2) = true := by
                simpa using hf
              have hgt := of_decide_eq_true hf2.2
              have := hfr hf2.1
              omega
          · intro d hd hcon
            rw [hv] at hcon
            exact absurd hcon (by simp)
          · rw [hv]
            simp
          · rw [hv]
            simp
        · rw [if_neg hf] at hv
          refine ⟨?_, ?_, ?_, ?_⟩
          · rw [hv]
            constructor
            · intro _
              refine ⟨_, rfl, rfl, hr.1, hr.2, ?_⟩
              intro hdot
              by_contra hgt
              exact hf (by simp [hdot]; omega)
            · intro _
              rfl
          · intro d hd _
            cases hd
            exact hv
          · rw [hv]
            simp
          · rw [hv]
            simp
      · rw [if_neg hr] at hv
        refine ⟨?_, ?_, ?_, ?_⟩
        · rw [hv]
          constructor
          · intro h
            exact absurd h (by simp)
          · rintro ⟨d, hd, _, hge, hle, _⟩
            cases hd
            exact absurd ⟨hge, hle⟩ hr
        · intro d hd hcon
          rw [hv] at hcon
          exact absurd hcon (by simp)
        · rw [hv]
          simp
        · rw [hv]
          simp
    · have hv := validate_amount_parse_inf s b hp
      refine ⟨?_, ?_, ?_, ?_⟩
      · rw [hv]
        constructor
        · intro h
          exact absurd h (by simp)
        · rintro ⟨d, hd, hfin, _⟩
          cases hd
          exact absurd hfin (by simp [PyDec.isFinite])
      · intro d hd hcon
        rw [hv] at hcon
        exact absurd hcon (by simp)
      · rw [hv]
        simp
      · rw [hv]
        simp
    · have hv := validate_amount_parse_nan s b hp
      refine ⟨?_, ?_, ?_, ?_⟩
      · rw [hv]
        constructor
        · intro h
          exact absurd h (by simp)
        · rintro ⟨d, hd, hfin, _⟩
          cases hd
          exact absurd hfin (by simp [PyDec.isFinite])
      · intro d hd hcon
        rw [hv] at hcon
        exact absurd hcon (by simp)
      · rw [hv]
        simp
      · rw [hv]
        simp

/-- C1 witness: the success branch at the concrete input `"1,234.5"`,
discharging the hypotheses of the amended claim. -/
theorem c1_validate_amount_witness :
    (parseDec (stripCommas "1,234.5") = some (PyDec.finite false 12345 (-1)) ∧
      (validate_amount "1,234.5").2 = none) ∧
    validate_amount "1,234.5" = (some (quantize2 (PyDec.finite false 12345 (-1))), none) :=
  ⟨⟨by decide, by decide⟩,
    (c1_validate_amount "1,234.5").2.1 (PyDec.finite false 12345 (-1)) (by decide) (by decide)⟩

/-- `validate_target`, unfolded into its decision chain. -/
theorem validate_target_eq (s : String) :
    validate_target s =
      match parseDec s with
      | none => (none, some "Target must be a valid number.")
      | some target =>
        match chainLe dec0 target dec101 with
        | none => (none, some "Target must be a valid number.")
        | some false => (none, some "Target must be between 0 and 101.")
        | some true =>
          if hasDot s && decide (afterLastDotLen s > 4) then
            (none, some "Target can have a maximum of 4 decimal places.")
          else (some target, none) := rfl

/-- `validate_target` on a finite parsed value, as plain conditionals. -/
theorem validate_target_parse_fin (s : String) (sb : Bool) (c : Nat) (e : Int)
    (hp : parseDec s = some (.finite sb c e)) :
    validate_target s =
      if 0 ≤ decValue (.finite sb c e) ∧ decValue (.finite sb c e) ≤ (101 : ℚ) then
        if hasDot s && decide (afterLastDotLen s > 4) then
          (none, some "Target can have a maximum of 4 decimal places.")
        else (some (.finite sb c e), none)
      else (none, some "Target must be between 0 and 101.") := by
  rw [validate_target_eq, hp]
  show (match chainLe dec0 (PyDec.finite sb c e) dec101 with
    | none => (none, some "Target must be a valid number.")
    | some false => (none, some "Target must be between 0 and 101.")
    | some true =>
      if hasDot s && decide (afterLastDotLen s > 4) then
        (none, some "Target can have a maximum of 4 decimal places.")
      else (some (PyDec.finite sb c e), none)) = _
  rw [show dec101 = PyDec.finite false 101 0 from rfl, chainLe_fin]
  rw [show ((101 : Nat) : ℚ) = (101 : ℚ) from by norm_num]
  by_cases hP : 0 ≤ decValue (.finite sb c e) ∧ decValue (.finite sb c e) ≤ (101 : ℚ)
  · rw [decide_eq_true hP, if_pos hP]
  · rw [decide_eq_false hP, if_neg hP]

/-- `validate_target` succeeds iff the input parses as a finite decimal in
`[0, 101]` with at most 4 characters after the last decimal point of the
original text, and on success it returns exactly the parsed decimal. -/
theorem validate_target_spec (s : String) :
    ((validate_target s).2 = none ↔
      ∃ d, parseDec s = some d ∧ d.isFinite = true ∧ 0 ≤ decValue d ∧ decValue d ≤ 101 ∧
        (hasDot s = true → afterLastDotLen s ≤ 4)) ∧
    (∀ d, parseDec s = some d → (validate_target s).2 = none →
      validate_target s = (some d, none)) := by
  rcases hp : parseDec s with _ | d
  · rw [validate_target_eq, hp]
    simp
  · rcases d with ⟨sb, c, e⟩ | b | b
    · have hv := validate_target_parse_fin s sb c e hp
      by_cases hr : 0 ≤ decValue (.finite sb c e) ∧ decValue (.finite sb c e) ≤ (101 : ℚ)
      · rw [if_pos hr] at hv
        by_cases hf : (hasDot s && decide (afterLastDotLen s > 4)) = true
        · rw [if_pos hf] at hv
          refine ⟨?_, ?_⟩
          · rw [hv]
            constructor
            · intro h
              exact absurd h (by simp)
            · rintro ⟨d, hd, _, _, _, hfr⟩
              cases hd
              have hf2 : hasDot s = true ∧ decide (afterLastDotLen s > 4) = true := by
                simpa using hf
              have hgt := of_decide_eq_true hf2.2
              have := hfr hf2.1
              omega
          · intro d hd hcon
            rw [hv] at hcon
            exact absurd hcon (by simp)
        · rw [if_neg hf] at hv
          refine ⟨?_, ?_⟩
          · rw [hv]
            constructor
            · intro _
              refine ⟨_, rfl, rfl, hr.1, hr.2, ?_⟩
              intro hdot
              by_contra hgt
              exact hf (by simp [hdot]; omega)
            · intro _
              rfl
          · intro d hd _
            cases hd
            exact hv
      · rw [if_neg hr] at hv
        refine ⟨?_, ?_⟩
        · rw [hv]
          constructor
          · intro h
            exact absurd h (by simp)
          · rintro ⟨d, hd, _, hge, hle, _⟩
            cases hd
            exact absurd ⟨hge, hle⟩ hr
        · intro d hd hcon
          rw [hv] at hcon
          exact absurd hcon (by simp)
    · have hv : validate_target s = (none, some "Target must be between 0 and 101.") := by
        cases b <;> (rw [validate_target_eq, hp]; rfl)
      refine ⟨?_, ?_⟩
      · rw [hv]
        constructor
        · intro h
          exact absurd h (by simp)
        · rintro ⟨d, hd, hfin, _⟩
          cases hd
          exact absurd hfin (by simp [PyDec.isFinite])
      · intro d hd hcon
        rw [hv] at hcon
        exact absurd hcon (by simp)
    · have hv : validate_target s = (none, some "Target must be a valid number.") := by
        rw [validate_target_eq, hp]
        rfl
      refine ⟨?_, ?_⟩
      · rw [hv]
        constructor
        · intro h
          exact absurd h (by simp)
        · rintro ⟨d, hd, hfin, _⟩
          cases hd
          exact absurd hfin (by simp [PyDec.isFinite])
      · intro d hd hcon
        rw [hv] at hcon
        exact absurd hcon (by simp)

/-- C2 counterexample: the registration
`bounty>register Song master +1 50` succeeds, the submitted target text is
`"+1"`, but the stored target is the canonical string `"1"` — not
character-for-character the submitted text. -/
theorem c2_counterexample :
    pyRsplitSpace (pyStrip (("bounty>register Song master +1 50" : String).drop 16)) 3 =
      ["Song", "master", "+1", "50"] ∧
    (handleRegister "bounty>register Song master +1 50" "bob" []).saved =
      some [⟨"Song", "Master", "1", "50.00", "bob"⟩] ∧
    ("1" : String) ≠ "+1" := by
  refine ⟨by decide, by decide, by decide⟩

/-- C2 (amended): when a registration succeeds, the stored target is the
canonical decimal string `str(Decimal(target_text))` of the submitted target
text (equal to the text exactly when the text is already canonical), its
parsed value is finite and lies in `[0, 101]`, and the submitted text has at
most 4 characters after its last decimal point; `validate_target` rejects
input that is unparseable, out of range, or has more than 4 characters after
the decimal point in the original input text. -/
theorem c2_target_field (content author : String) (l : List Bounty) (s : String) :
    (∀ nl, (handleRegister content author l).saved = some nl →
      ∃ p1 p2 p3 p4 d,
        pyRsplitSpace (pyStrip (content.drop 16)) 3 = [p1, p2, p3, p4] ∧
        parseDec (pyStrip p3) = some d ∧
        d.isFinite = true ∧ 0 ≤ decValue d ∧ decValue d ≤ 101 ∧
        (hasDot (pyStrip p3) = true → afterLastDotLen (pyStrip p3) ≤ 4) ∧
        ∃ b, nl = l ++ [b] ∧ b.target = decToStr d) ∧
    ((validate_target s).2 = none ↔
      ∃ d, parseDec s = some d ∧ d.isFinite = true ∧ 0 ≤ decValue d ∧ decValue d ≤ 101 ∧
        (hasDot s = true → afterLastDotLen s ≤ 4)) := by
  refine ⟨?_, (validate_target_spec s).1⟩
  intro nl hsaved
  have key : ∀ r : HandlerResult, handleRegister content author l = r → r.saved = some nl →
      ∃ p1 p2 p3 p4 d,
        pyRsplitSpace (pyStrip (content.drop 16)) 3 = [p1, p2, p3, p4] ∧
        parseDec (pyStrip p3) = some d ∧
        d.isFinite = true ∧ 0 ≤ decValue d ∧ decValue d ≤ 101 ∧
        (hasDot (pyStrip p3) = true → afterLastDotLen (pyStrip p3) ≤ 4) ∧
        ∃ b, nl = l ++ [b] ∧ b.target = decToStr d := by
    intro r hr hs
    simp only [handleRegister] at hr
    split at hr
    · subst hr; simp at hs
    · split at hr
      · split at hr
        · subst hr; simp at hs
        · split at hr
          · subst hr; simp at hs
          · split at hr
            · subst hr; simp at hs
            · subst hr; simp at hs
            · split at hr
              · subst hr; simp at hs
              · subst hr; simp at hs
              · rename_i p1 p2 p3 p4 hparts hsong sc1 difficulty hdiff sc2 target htarget
                  sc3 amount hamount
                subst hr
                cases hs
                have h2none : (validate_target (pyStrip p3)).2 = none := by
                  rw [htarget]
                rcases (validate_target_spec (pyStrip p3)).1.mp h2none with
                  ⟨d, hd, hfin, hge, hle, hfr⟩
                have huniq := (validate_target_spec (pyStrip p3)).2 d hd h2none
                rw [htarget] at huniq
                cases huniq
                exact ⟨p1, p2, p3, p4, target, hparts, hd, hfin, hge, hle, hfr,
                  ⟨_, rfl, rfl⟩⟩
      · subst hr; simp at hs
  exact key _ rfl hsaved

/-- C2 witness: a successful registration with a canonical 4-decimal target. -/
theorem c2_target_field_witness :
    ((handleRegister "bounty>register Freedom Dive master 100.0000 150.00" "alice" []).saved =
      some [⟨"Freedom Dive", "Master", "100.0000", "150.00", "alice"⟩]) ∧
    (∃ p1 p2 p3 p4 d,
      pyRsplitSpace
          (pyStrip (("bounty>register Freedom Dive master 100.0000 150.00" : String).drop 16))
          3 = [p1, p2, p3, p4] ∧
      parseDec (pyStrip p3) = some d ∧
      d.isFinite = true ∧ 0 ≤ decValue d ∧ decValue d ≤ 101 ∧
      (hasDot (pyStrip p3) = true → afterLastDotLen (pyStrip p3) ≤ 4) ∧
      ∃ b, [(⟨"Freedom Dive", "Master", "100.0000", "150.00", "alice"⟩ : Bounty)] =
          ([] : List Bounty) ++ [b] ∧ b.target = decToStr d) :=
  ⟨by decide,
    (c2_target_field "bounty>register Freedom Dive master 100.0000 150.00" "alice" [] "1").1
      [⟨"Freedom Dive", "Master", "100.0000", "150.00", "alice"⟩] (by decide)⟩

/-- Hex digits decode to their value. -/
theorem hexVal_hexDigitChar (k : Nat) (h : k < 16) : hexVal (hexDigitChar k) = some k := by
  interval_cases k <;> rfl

/-- The scalar-value ranges guaranteed by `Char` validity. -/
theorem char_toNat_ranges (c : Char) :
    c.toNat < 0xD800 ∨ (0xDFFF < c.toNat ∧ c.toNat < 0x110000) := c.valid

/-- `hex4` decodes `toHex4`. -/
theorem hex4_toHex4 (n : Nat) (hn : n < 0x10000) :
    hex4 (hexDigitChar (n / 4096 % 16)) (hexDigitChar (n / 256 % 16))
      (hexDigitChar (n / 16 % 16)) (hexDigitChar (n % 16)) = some n := by
  unfold hex4
  rw [hexVal_hexDigitChar (n / 4096 % 16) (by omega), hexVal_hexDigitChar (n / 256 % 16)
    (by omega), hexVal_hexDigitChar (n / 16 % 16) (by omega),
    hexVal_hexDigitChar (n % 16) (by omega)]
  dsimp only
  rw [show ((n / 4096 % 16 * 16 + n / 256 % 16) * 16 + n / 16 % 16) * 16 + n % 16 = n
    from by omega]

/-- Scanning one `\uXXXX` escape yields its code unit. -/
theorem parseUnits_u (n : Nat) (hn : n < 0x10000) (k : List Char) :
    parseUnits ('\\' :: 'u' :: (toHex4 n ++ k)) = consFstN n (parseUnits k) := by
  rw [show toHex4 n ++ k = hexDigitChar (n / 4096 % 16) :: hexDigitChar (n / 256 % 16) ::
    hexDigitChar (n / 16 % 16) :: hexDigitChar (n % 16) :: k from by rw [toHex4]; rfl]
  rw [parseUnits]
  rw [if_neg (by decide : ¬('\\' : Char) = '"'), if_pos rfl]
  rw [hex4_toHex4 n hn]

/-- Scanning the escape of one character yields exactly its code units. -/
theorem parseUnits_escapeChar (c : Char) (k : List Char) (us : List Nat) (rest : List Char)
    (hk : parseUnits k = some (us, rest)) :
    parseUnits (escapeChar c ++ k) = some (unitsOfChar c ++ us, rest) := by
  by_cases hq : c = '"'
  · subst hq
    rw [show escapeChar '"' ++ k = '\\' :: '"' :: k from rfl, parseUnits]
    rw [if_neg (by decide : ¬('\\' : Char) = '"'), if_pos rfl, hk]
    rfl
  by_cases hbs : c = '\\'
  · subst hbs
    rw [show escapeChar '\\' ++ k = '\\' :: '\\' :: k from rfl, parseUnits]
    rw [if_neg (by decide : ¬('\\' : Char) = '"'), if_pos rfl, hk]
    rfl
  by_cases hlt : c.toNat < 0x20
  · by_cases h8 : c = Char.ofNat 8
    · subst h8
      rw [show escapeChar (Char.ofNat 8) ++ k = '\\' :: 'b' :: k from rfl, parseUnits]
      rw [if_neg (by decide : ¬('\\' : Char) = '"'), if_pos rfl, hk]
      rfl
    by_cases h9 : c = '\t'
    · subst h9
      rw [show escapeChar '\t' ++ k = '\\' :: 't' :: k from rfl, parseUnits]
      rw [if_neg (by decide : ¬('\\' : Char) = '"'), if_pos rfl, hk]
      rfl
    by_cases h10 : c = '\n'
    · subst h10
      rw [show escapeChar '\n' ++ k = '\\' :: 'n' :: k from rfl, parseUnits]
      rw [if_neg (by decide : ¬('\\' : Char) = '"'), if_pos rfl, hk]
      rfl
    by_cases h12 : c = Char.ofNat 12
    · subst h12
      rw [show escapeChar (Char.ofNat 12) ++ k = '\\' :: 'f' :: k from rfl, parseUnits]
      rw [if_neg (by decide : ¬('\\' : Char) = '"'), if_pos rfl, hk]
      rfl
    by_cases h13 : c = '\r'
    · subst h13
      rw [show escapeChar '\r' ++ k = '\\' :: 'r' :: k from rfl, parseUnits]
      rw [if_neg (by decide : ¬('\\' : Char) = '"'), if_pos rfl, hk]
      rfl
    · have hesc : escapeChar c = '\\' :: 'u' :: toHex4 c.toNat := by
        simp only [escapeChar, if_neg hq, if_neg hbs, if_pos hlt, if_neg h8, if_neg h9,
          if_neg h10, if_neg h12, if_neg h13]
      rw [hesc, List.cons_append, List.cons_append]
      rw [parseUnits_u c.toNat (by omega) k, hk]
      rw [show unitsOfChar c = [c.toNat] from by simp [unitsOfChar]; omega]
      rfl
  · by_cases hle : c.toNat ≤ 0x7E
    · have hesc : escapeChar c = [c] := by
        simp only [escapeChar, if_neg hq, if_neg hbs, if_neg hlt, if_pos hle]
      rw [hesc, List.singleton_append, parseUnits.eq_def]
      dsimp only
      rw [if_neg hq, if_neg hbs, if_neg (by omega : ¬c.toNat < 0x20), hk]
      rw [show unitsOfChar c = [c.toNat] from by simp [unitsOfChar]; omega]
      rfl
    · by_cases hbig : c.toNat < 0x10000
      · have hesc : escapeChar c = '\\' :: 'u' :: toHex4 c.toNat := by
          simp only [escapeChar, if_neg hq, if_neg hbs, if_neg hlt, if_neg hle, if_pos hbig]
        rw [hesc, List.cons_append, List.cons_append]
        rw [parseUnits_u c.toNat hbig k, hk]
        rw [show unitsOfChar c = [c.toNat] from by simp [unitsOfChar]; omega]
        rfl
      · have hv := char_toNat_ranges c
        have h17 : c.toNat < 0x110000 := by
          rcases hv with h | h
          · omega
          · exact h.2
        have hesc : escapeChar c =
            '\\' :: 'u' :: toHex4 (0xD800 + (c.toNat - 0x10000) / 0x400) ++
              '\\' :: 'u' :: toHex4 (0xDC00 + (c.toNat - 0x10000) % 0x400) := by
          simp only [escapeChar, if_neg hq, if_neg hbs, if_neg hlt, if_neg hle, if_neg hbig]
        rw [hesc]
        rw [show ('\\' :: 'u' :: toHex4 (0xD800 + (c.toNat - 0x10000) / 0x400) ++
            '\\' :: 'u' :: toHex4 (0xDC00 + (c.toNat - 0x10000) % 0x400)) ++ k =
          '\\' :: 'u' :: (toHex4 (0xD800 + (c.toNat - 0x10000) / 0x400) ++
            ('\\' :: 'u' :: (toHex4 (0xDC00 + (c.toNat - 0x10000) % 0x400) ++ k))) from by
          simp]
        rw [parseUnits_u _ (by omega), parseUnits_u _ (by omega), hk]
        rw [show unitsOfChar c = [0xD800 + (c.toNat - 0x10000) / 0x400,
          0xDC00 + (c.toNat - 0x10000) % 0x400] from by simp [unitsOfChar]; omega]
        rfl

/-- Scanning an escaped string body yields exactly its code units. -/
theorem parseUnits_escapeList (cs : List Char) (rest : List Char) :
    parseUnits (escapeList cs ++ '"' :: rest) = some (unitsOfList cs, rest) := by
  induction cs with
  | nil =>
    rw [show escapeList [] ++ '"' :: rest = '"' :: rest from rfl, parseUnits.eq_def]
    dsimp only
    rw [if_pos rfl]
    rfl
  | cons c cs ih =>
    rw [show escapeList (c :: cs) = escapeChar c ++ escapeList cs from by simp [escapeList]]
    rw [List.append_assoc, parseUnits_escapeChar c _ _ _ ih]
    rw [show unitsOfChar c ++ unitsOfList cs = unitsOfList (c :: cs) from by
      simp [unitsOfList]]

/-- Combining the code units of one character restores the character. -/
theorem combineUnits_unitsOfChar (c : Char) (us : List Nat) :
    combineUnits (unitsOfChar c ++ us) = (combineUnits us).map (fun s => c :: s) := by
  have hv := char_toNat_ranges c
  by_cases hbig : c.toNat < 0x10000
  · rw [show unitsOfChar c ++ us = c.toNat :: us from by simp [unitsOfChar, hbig]]
    rw [combineUnits.eq_def]
    dsimp only
    rw [if_neg (by omega), if_neg (by omega)]
    rw [Char.ofNat_toNat]
  · rw [show unitsOfChar c ++ us = (0xD800 + (c.toNat - 0x10000) / 0x400) ::
      (0xDC00 + (c.toNat - 0x10000) % 0x400) :: us from by simp [unitsOfChar, hbig]]
    have h17 : c.toNat < 0x110000 := by
      rcases hv with h | h
      · omega
      · exact h.2
    rw [combineUnits.eq_def]
    dsimp only
    rw [if_pos (by constructor <;> omega)]
    rw [if_pos (by constructor <;> omega)]
    rw [show 0x10000 + (0xD800 + (c.toNat - 0x10000) / 0x400 - 0xD800) * 0x400 +
      (0xDC00 + (c.toNat - 0x10000) % 0x400 - 0xDC00) = c.toNat from by omega]
    rw [Char.ofNat_toNat]

/-- Combining the code units of a string restores the string. -/
theorem combineUnits_unitsOfList (cs : List Char) :
    combineUnits (unitsOfList cs) = some cs := by
  induction cs with
  | nil => rfl
  | cons c cs ih =>
    rw [show unitsOfList (c :: cs) = unitsOfChar c ++ unitsOfList cs from by
      simp [unitsOfList]]
    rw [combineUnits_unitsOfChar, ih]
    rfl

/-- Scanning an escaped string body up to its closing quote undoes the
escaping. -/
theorem parseStrBody_escapeList (cs : List Char) (rest : List Char) :
    parseStrBody (escapeList cs ++ '"' :: rest) = some (cs, rest) := by
  unfold parseStrBody
  rw [parseUnits_escapeList]
  dsimp only
  rw [combineUnits_unitsOfList]

/-- Whitespace skipping steps over one whitespace character. -/
theorem skipWs_ws_cons (c : Char) (cs : List Char) (h : isJsonWs c = true) :
    skipWs (c :: cs) = skipWs cs := by
  simp [skipWs, List.dropWhile_cons, h]

/-- Whitespace skipping stops at a non-whitespace character. -/
theorem skipWs_cons_of_not (c : Char) (cs : List Char) (h : isJsonWs c = false) :
    skipWs (c :: cs) = c :: cs := by
  simp [skipWs, List.dropWhile_cons, h]

/-- Whitespace skipping drops a whole whitespace run. -/
theorem skipWs_append_ws (a x : List Char) (h : ∀ c ∈ a, isJsonWs c = true) :
    skipWs (a ++ x) = skipWs x := by
  induction a with
  | nil => rfl
  | cons c cs ih =>
    rw [List.cons_append, skipWs_ws_cons c _ (h c (by simp))]
    exact ih (fun d hd => h d (by simp [hd]))

/-- The scanner on a string value. -/
theorem parseP_val_str (f : Nat) (v : String) (tail : List Char) :
    parseP (f + 1) PMode.val ('"' :: (escapeList v.data ++ '"' :: tail)) =
      some (Json.str v, tail) := by
  rw [parseP.eq_def]
  dsimp only
  rw [if_pos rfl, parseStrBody_escapeList]

/-- The scanner entering an object. -/
theorem parseP_val_obj (f : Nat) (x : List Char) :
    parseP (f + 1) PMode.val ('\x7b' :: x) =
      (match skipWs x with
       | [] => none
       | c1 :: r =>
         if c1 = '\x7d' then some (Json.obj [], r)
         else parseP f PMode.membs (c1 :: r)) := by
  rw [parseP.eq_def]
  dsimp only
  rw [if_neg (by decide), if_neg (by decide), if_pos rfl]

/-- The scanner entering an array. -/
theorem parseP_val_arr (f : Nat) (x : List Char) :
    parseP (f + 1) PMode.val ('[' :: x) =
      (match skipWs x with
       | [] => none
       | c1 :: r =>
         if c1 = ']' then some (Json.arr [], r)
         else parseP f PMode.elems (c1 :: r)) := by
  rw [parseP.eq_def]
  dsimp only
  rw [if_neg (by decide), if_pos rfl]

/-- The scanner on one array element boundary. -/
theorem parseP_elems_step (f : Nat) (cs : List Char) :
    parseP (f + 1) PMode.elems cs =
      (match parseP f PMode.val cs with
       | none => none
       | some (v, r) =>
         match skipWs r with
         | [] => none
         | c :: r2 =>
           if c = ',' then
             (match parseP f PMode.elems (skipWs r2) with
              | some (Json.arr vs, r3) => some (Json.arr (v :: vs), r3)
              | _ => none)
           else if c = ']' then some (Json.arr [v], r2)
           else none) := by
  rw [parseP.eq_def]

/-- The scanner on one object member starting at its key. -/
theorem parseP_membs_step (f : Nat) (k : String) (tail : List Char) :
    parseP (f + 1) PMode.membs ('"' :: (escapeList k.data ++ '"' :: tail)) =
      (match skipWs tail with
       | [] => none
       | c1 :: r2 =>
         if c1 = ':' then
           (match parseP f PMode.val (skipWs r2) with
            | none => none
            | some (v, r3) =>
              match skipWs r3 with
              | [] => none
              | c2 :: r4 =>
                if c2 = ',' then
                  (match parseP f PMode.membs (skipWs r4) with
                   | some (Json.obj ms, r5) => some (Json.obj ((k, v) :: ms), r5)
                   | _ => none)
                else if c2 = '\x7d' then some (Json.obj [(k, v)], r4)
                else none)
         else none) := by
  rw [parseP.eq_def]
  dsimp only
  rw [if_pos rfl, parseStrBody_escapeList]

/-- A non-empty member list serializes to text starting with a quote. -/
theorem serializeMembers_cons_shape (kv : String × String) (tail : List (String × String)) :
    ∃ ys, serializeMembers (kv :: tail) = '"' :: ys := by
  cases tail with
  | nil =>
    exact ⟨escapeList kv.1.data ++ ['"'] ++ ((": ").data ++ quoteStr kv.2), by
      simp [serializeMembers, memberPair, quoteStr]⟩
  | cons a t =>
    exact ⟨escapeList kv.1.data ++ ['"'] ++ ((": ").data ++ quoteStr kv.2 ++
      ((",\n        ").data ++ serializeMembers (a :: t))), by
      simp [serializeMembers, memberPair, quoteStr]⟩

/-- Scanning the serialized members of an object yields exactly those
members. -/
theorem parseP_membs_serialize :
    ∀ (ms : List (String × String)) (fuel : Nat) (rest : List Char), ms ≠ [] →
    2 * ms.length + 1 ≤ fuel →
    parseP fuel PMode.membs (serializeMembers ms ++ (("\n    \x7d").data ++ rest)) =
      some (Json.obj (ms.map fun kv => (kv.1, Json.str kv.2)), rest) := by
  intro ms
  induction ms with
  | nil => intro fuel rest hne _; exact absurd rfl hne
  | cons kv tail ih =>
    intro fuel rest _ hfuel
    simp only [List.length_cons] at hfuel
    obtain ⟨f, rfl⟩ : ∃ f, fuel = f + 1 := ⟨fuel - 1, by omega⟩
    cases tail with
    | nil =>
      obtain ⟨f2, rfl⟩ : ∃ f2, f = f2 + 1 := ⟨f - 1, by omega⟩
      rw [show serializeMembers [kv] ++ (("\n    \x7d").data ++ rest) =
        '"' :: (escapeList kv.1.data ++ '"' :: (':' :: ' ' ::
          ('"' :: (escapeList kv.2.data ++ '"' ::
            ('\n' :: ' ' :: ' ' :: ' ' :: ' ' :: '\x7d' :: rest))))) from by
        simp [serializeMembers, memberPair, quoteStr,
          show (": ").data = [':', ' '] from rfl,
          show (("\n    \x7d").data) = ['\n', ' ', ' ', ' ', ' ', '\x7d'] from rfl]]
      rw [parseP_membs_step]
      rw [skipWs_cons_of_not ':' _ (by decide)]
      dsimp only
      rw [if_pos rfl]
      rw [skipWs_ws_cons ' ' _ (by decide),
        skipWs_cons_of_not '"' _ (by decide)]
      rw [parseP_val_str]
      dsimp only
      rw [skipWs_ws_cons '\n' _ (by decide), skipWs_ws_cons ' ' _ (by decide),
        skipWs_ws_cons ' ' _ (by decide), skipWs_ws_cons ' ' _ (by decide),
        skipWs_ws_cons ' ' _ (by decide), skipWs_cons_of_not '\x7d' _ (by decide)]
      dsimp only
      rw [if_neg (by decide), if_pos rfl]
      rfl
    | cons kv2 tail2 =>
      obtain ⟨f2, rfl⟩ : ∃ f2, f = f2 + 1 := ⟨f - 1, by omega⟩
      rw [show serializeMembers (kv :: kv2 :: tail2) ++ (("\n    \x7d").data ++ rest) =
        '"' :: (escapeList kv.1.data ++ '"' :: (':' :: ' ' ::
          ('"' :: (escapeList kv.2.data ++ '"' ::
            (',' :: '\n' :: ' ' :: ' ' :: ' ' :: ' ' :: ' ' :: ' ' :: ' ' :: ' ' ::
              (serializeMembers (kv2 :: tail2) ++ (("\n    \x7d").data ++ rest)))))))
          from by
        simp [show serializeMembers (kv :: kv2 :: tail2) =
            memberPair kv.1 kv.2 ++ ((",\n        ").data ++ serializeMembers (kv2 :: tail2))
            from by simp [serializeMembers], memberPair, quoteStr,
          show (": ").data = [':', ' '] from rfl,
          show ((",\n        ").data) =
            [',', '\n', ' ', ' ', ' ', ' ', ' ', ' ', ' ', ' '] from rfl]]
      rw [parseP_membs_step]
      rw [skipWs_cons_of_not ':' _ (by decide)]
      dsimp only
      rw [if_pos rfl]
      rw [skipWs_ws_cons ' ' _ (by decide), skipWs_cons_of_not '"' _ (by decide)]
      rw [parseP_val_str]
      dsimp only
      rw [skipWs_cons_of_not ',' _ (by decide)]
      dsimp only
      rw [if_pos rfl]
      rw [skipWs_ws_cons '\n' _ (by decide), skipWs_ws_cons ' ' _ (by decide),
        skipWs_ws_cons ' ' _ (by decide), skipWs_ws_cons ' ' _ (by decide),
        skipWs_ws_cons ' ' _ (by decide), skipWs_ws_cons ' ' _ (by decide),
        skipWs_ws_cons ' ' _ (by decide), skipWs_ws_cons ' ' _ (by decide),
        skipWs_ws_cons ' ' _ (by decide)]
      obtain ⟨ys, hys⟩ := serializeMembers_cons_shape kv2 tail2
      rw [hys, List.cons_append, skipWs_cons_of_not '"' _ (by decide), ← List.cons_append,
        ← hys]
      rw [ih (f2 + 1) rest (by simp) (by simp only [List.length_cons] at hfuel ⊢; omega)]
      rfl

/-- The scanner on one serialized bounty dict as a value. -/
theorem parseP_val_bounty (f : Nat) (b : Bounty) (rest : List Char) (hf : 11 ≤ f) :
    parseP (f + 1) PMode.val (serializeBounty b ++ rest) = some (bountyToJson b, rest) := by
  rw [show serializeBounty b ++ rest =
    '\x7b' :: ('\n' :: ' ' :: ' ' :: ' ' :: ' ' :: ' ' :: ' ' :: ' ' :: ' ' ::
      (serializeMembers [("song_name", b.song_name), ("difficulty", b.difficulty),
        ("target", b.target), ("amount", b.amount), ("user", b.user)] ++
       (("\n    \x7d").data ++ rest))) from by
    simp [serializeBounty, bountyPairs, show ("\n        ").data =
      ['\n', ' ', ' ', ' ', ' ', ' ', ' ', ' ', ' '] from rfl]]
  rw [parseP_val_obj]
  rw [skipWs_ws_cons '\n' _ (by decide), skipWs_ws_cons ' ' _ (by decide),
    skipWs_ws_cons ' ' _ (by decide), skipWs_ws_cons ' ' _ (by decide),
    skipWs_ws_cons ' ' _ (by decide), skipWs_ws_cons ' ' _ (by decide),
    skipWs_ws_cons ' ' _ (by decide), skipWs_ws_cons ' ' _ (by decide),
    skipWs_ws_cons ' ' _ (by decide)]
  obtain ⟨ys, hys⟩ := serializeMembers_cons_shape ("song_name", b.song_name)
    [("difficulty", b.difficulty), ("target", b.target), ("amount", b.amount),
     ("user", b.user)]
  rw [hys, List.cons_append, skipWs_cons_of_not '"' _ (by decide)]
  dsimp only
  rw [if_neg (by decide)]
  rw [← List.cons_append, ← hys]
  rw [parseP_membs_serialize [("song_name", b.song_name), ("difficulty", b.difficulty),
    ("target", b.target), ("amount", b.amount), ("user", b.user)] f rest (by simp)
    (by simp only [List.length_cons, List.length_nil]; omega)]
  rfl

/-- A non-empty item list serializes to text starting with an open brace. -/
theorem serializeItems_cons_shape (b : Bounty) (t : List Bounty) :
    ∃ ys, serializeItems (b :: t) = '\x7b' :: ys := by
  cases t with
  | nil =>
    exact ⟨("\n        ").data ++ serializeMembers (bountyPairs b) ++ ("\n    \x7d").data,
      by simp [serializeItems, serializeBounty]⟩
  | cons a t2 =>
    exact ⟨(("\n        ").data ++ serializeMembers (bountyPairs b) ++ ("\n    \x7d").data) ++
      ((",\n    ").data ++ serializeItems (a :: t2)), by simp [serializeItems, serializeBounty]⟩

/-- Scanning the serialized items of the bounty array yields exactly the
encoded records. -/
theorem parseP_elems_serialize :
    ∀ (l : List Bounty) (fuel : Nat) (rest : List Char), l ≠ [] →
    l.length + 12 ≤ fuel →
    parseP fuel PMode.elems (serializeItems l ++ ('\n' :: ']' :: rest)) =
      some (Json.arr (l.map bountyToJson), rest) := by
  intro l
  induction l with
  | nil => intro fuel rest hne _; exact absurd rfl hne
  | cons b tail ih =>
    intro fuel rest _ hfuel
    simp only [List.length_cons] at hfuel
    obtain ⟨f, rfl⟩ : ∃ f, fuel = f + 1 := ⟨fuel - 1, by omega⟩
    rw [parseP_elems_step]
    cases tail with
    | nil =>
      rw [show serializeItems [b] ++ ('\n' :: ']' :: rest) =
          serializeBounty b ++ ('\n' :: ']' :: rest) from by simp [serializeItems]]
      obtain ⟨f2, rfl⟩ : ∃ f2, f = f2 + 1 := ⟨f - 1, by omega⟩
      rw [parseP_val_bounty f2 b _ (by omega)]
      dsimp only
      rw [skipWs_ws_cons '\n' _ (by decide), skipWs_cons_of_not ']' _ (by decide)]
      dsimp only
      rw [if_neg (by decide), if_pos rfl]
      rfl
    | cons b2 tail2 =>
      rw [show serializeItems (b :: b2 :: tail2) ++ ('\n' :: ']' :: rest) =
          serializeBounty b ++ (',' :: '\n' :: ' ' :: ' ' :: ' ' :: ' ' ::
            (serializeItems (b2 :: tail2) ++ ('\n' :: ']' :: rest))) from by
        simp [show serializeItems (b :: b2 :: tail2) =
            serializeBounty b ++ ((",\n    ").data ++ serializeItems (b2 :: tail2))
            from by simp [serializeItems],
          show ((",\n    ").data) = [',', '\n', ' ', ' ', ' ', ' '] from rfl]]
      obtain ⟨f2, rfl⟩ : ∃ f2, f = f2 + 1 := ⟨f - 1, by omega⟩
      rw [parseP_val_bounty f2 b _ (by omega)]
      dsimp only
      rw [skipWs_cons_of_not ',' _ (by decide)]
      dsimp only
      rw [if_pos rfl]
      rw [skipWs_ws_cons '\n' _ (by decide), skipWs_ws_cons ' ' _ (by decide),
        skipWs_ws_cons ' ' _ (by decide), skipWs_ws_cons ' ' _ (by decide),
        skipWs_ws_cons ' ' _ (by decide)]
      obtain ⟨ys, hys⟩ := serializeItems_cons_shape b2 tail2
      rw [hys, List.cons_append, skipWs_cons_of_not '\x7b' _ (by decide),
        ← List.cons_append, ← hys]
      rw [ih (f2 + 1) rest (by simp) (by simp only [List.length_cons] at hfuel ⊢; omega)]
      rfl

/-- Each serialized bounty contributes at least 16 characters. -/
theorem serializeItems_len : ∀ l : List Bounty, 16 * l.length ≤ (serializeItems l).length
  | [] => by simp [serializeItems]
  | [b] => by
    have h1 : (("\n        ").data).length = 9 := rfl
    have h2 : (("\n    \x7d").data).length = 6 := rfl
    simp only [serializeItems, serializeBounty, List.length_cons, List.length_append,
      List.length_nil, h1, h2]
    omega
  | b :: b2 :: t => by
    have ih := serializeItems_len (b2 :: t)
    have h1 : (("\n        ").data).length = 9 := rfl
    have h2 : (("\n    \x7d").data).length = 6 := rfl
    have h3 : (((",\n    ").data)).length = 6 := rfl
    simp only [show serializeItems (b :: b2 :: t) =
        serializeBounty b ++ ((",\n    ").data ++ serializeItems (b2 :: t))
        from by simp [serializeItems],
      serializeBounty, List.length_cons, List.length_append, List.length_nil,
      h1, h2, h3] at *
    omega

/-- `json.loads` on text starting with a non-whitespace character. -/
theorem pyJsonLoads_cons_nonws (c : Char) (Y : List Char) (h : isJsonWs c = false) :
    pyJsonLoads (String.mk (c :: Y)) =
      (match parseP ((c :: Y).length + 1) PMode.val (c :: Y) with
       | some (v, rest) => if (skipWs rest).isEmpty then some v else none
       | none => none) := by
  simp only [pyJsonLoads]
  rw [skipWs_cons_of_not c Y h]

/-- Parsing the exact file text written by `save_bounties` recovers the
encoded array. -/
theorem pyJsonLoads_save (l : List Bounty) :
    pyJsonLoads (save_bounties l) = some (Json.arr (l.map bountyToJson)) := by
  cases l with
  | nil => rfl
  | cons b tail =>
    rw [show save_bounties (b :: tail) =
      String.mk ('[' :: ('\n' :: ' ' :: ' ' :: ' ' :: ' ' ::
        (serializeItems (b :: tail) ++ ('\n' :: ']' :: [])))) from by
      simp [save_bounties, show ("[\n    ").data = ['[', '\n', ' ', ' ', ' ', ' '] from rfl,
        show ("\n]").data = ['\n', ']'] from rfl]]
    rw [pyJsonLoads_cons_nonws '[' _ (by decide)]
    rw [parseP_val_arr]
    rw [skipWs_ws_cons '\n' _ (by decide), skipWs_ws_cons ' ' _ (by decide),
      skipWs_ws_cons ' ' _ (by decide), skipWs_ws_cons ' ' _ (by decide),
      skipWs_ws_cons ' ' _ (by decide)]
    obtain ⟨ys, hys⟩ := serializeItems_cons_shape b tail
    rw [hys, List.cons_append, skipWs_cons_of_not '\x7b' _ (by decide)]
    dsimp only
    rw [if_neg (by decide)]
    rw [← List.cons_append, ← hys]
    rw [parseP_elems_serialize (b :: tail) _ [] (by simp) (by
      have := serializeItems_len (b :: tail)
      simp only [List.length_cons, List.length_append, List.length_nil] at this ⊢
      omega)]
    rfl

/-- Decoding one encoded bounty recovers it field for field. -/
theorem jsonToBounty_bountyToJson (b : Bounty) : jsonToBounty (bountyToJson b) = some b := rfl

/-- Decoding an encoded tail with an accumulator. -/
theorem mapM_loop_jsonToBounty (l : List Bounty) (acc : List Bounty) :
    List.mapM.loop jsonToBounty (l.map bountyToJson) acc = some (acc.reverse ++ l) := by
  induction l generalizing acc with
  | nil => simp [List.mapM.loop]
  | cons b t ih => simp [List.mapM.loop, jsonToBounty_bountyToJson, ih]

/-- Decoding a whole encoded bounty array recovers the list. -/
theorem mapM_jsonToBounty (l : List Bounty) :
    (l.map bountyToJson).mapM jsonToBounty = some l := by
  rw [show (l.map bountyToJson).mapM jsonToBounty =
    List.mapM.loop jsonToBounty (l.map bountyToJson) [] from rfl]
  rw [mapM_loop_jsonToBounty]
  simp

/-- `save_bounties` never writes an empty file. -/
theorem save_bounties_ne_empty (l : List Bounty) : save_bounties l ≠ "" := by
  cases l with
  | nil => simp [save_bounties]
  | cons b t =>
    simp [save_bounties, String.ext_iff,
      show ("[\n    ").data = ['[', '\n', ' ', ' ', ' ', ' '] from rfl,
      show ("" : String).data = [] from rfl]

/-- Loading a just-saved file yields the encoded array, no warning. -/
theorem load_save_eq (l : List Bounty) :
    load_bounties (some (save_bounties l)) = ⟨Json.arr (l.map bountyToJson), false⟩ := by
  rw [show load_bounties (some (save_bounties l)) =
    (if save_bounties l = "" then ⟨Json.arr [], false⟩
     else match pyJsonLoads (save_bounties l) with
          | some v => ⟨v, false⟩
          | none => ⟨Json.arr [], true⟩) from rfl]
  rw [if_neg (save_bounties_ne_empty l), pyJsonLoads_save]

/-- C5: saving any bounty sequence with `save_bounties` and loading it back
with `load_bounties` yields a field-for-field identical sequence — the loaded
JSON value is exactly the array of encoded records, no decode warning fires,
and decoding recovers every record — and loading any fixed file twice without
intervening mutation yields the same result both times. -/
theorem c5_save_load_roundtrip (l : List Bounty) :
    (load_bounties (some (save_bounties l))).data = Json.arr (l.map bountyToJson) ∧
    (load_bounties (some (save_bounties l))).warned = false ∧
    decodeBounties (load_bounties (some (save_bounties l))).data = some l ∧
    ∀ f : Option String, load_bounties f = load_bounties f := by
  refine ⟨by rw [load_save_eq], by rw [load_save_eq], ?_, fun f => rfl⟩
  rw [load_save_eq]
  show (l.map bountyToJson).mapM jsonToBounty = some l
  exact mapM_jsonToBounty l

/-- C6 witness: concrete undecodable file content. -/
theorem c6_load_fallback_witness :
    (("oops" : String) ≠ "" ∧ pyJsonLoads "oops" = none) ∧
    load_bounties (some "oops") = ⟨Json.arr [], true⟩ :=
  ⟨⟨by decide, rfl⟩, c6_load_fallback.2.2 "oops" (by decide) rfl⟩
